import Mathlib

/-!
PyA_Final.cpp : patch filters and the undo/redo operation stacks.

A shallow embedding of `src/PyA_Final.cpp`.

* A `wxImage` / `wxBitmap` is a `Bitmap`: its size and one intensity per pixel.  The program
  loads gray maps and every filter writes the same value to the three display channels
  (`Red() = Green() = Blue() = ...`) after reading `Red()`, so one channel is kept.
* Pixel iterators (`MoveTo`, `++p`, `OffsetY`) are replaced by the coordinates they point at.
* `int` variables are `Int`; the values that occur stay far below `2^31`.
* `double alpha` is an exact rational: the product with a pixel is exact where the double
  product is (as for alpha = 1.0, the only value the statements below compute with); elsewhere
  the double product may round across an integer and the two truncations can differ by one.
* The member functions of `ImageProcess` change the object and return the composed bitmap;
  here they return the changed object together with that bitmap.
-/

namespace PyA

/-! ## Rasters -/

/-- Size of the undo-redo operation stack (`#define STACKSIZE 10`). -/
def STACKSIZE : Int := 10

/-- A single-channel raster; `pix c r` is the intensity at column `c`, row `r`. -/
structure Bitmap where
  width : Nat
  height : Nat
  pix : Nat → Nat → Nat

/-- Store `v` in the pixel at column `c`, row `r` (an assignment through an iterator). -/
def Bitmap.setPix (b : Bitmap) (c r v : Nat) : Bitmap :=
  { b with pix := fun c1 r1 => if c1 = c ∧ r1 = r then v else b.pix c1 r1 }

/-- Modelled from the spec: the channel type behind `Red()`, `Green()`, `Blue()` is declared in
wxWidgets (`wx/rawbmp.h`), not under src/.  The spec fixes intensities to 0..255 and describes
the store as an 8-bit cast, so assigning an `int` to a channel keeps its low 8 bits. -/
def toChannel (v : Int) : Nat := (v % 256).toNat

/-- The raster scan shared by every routine of the file:
`for (int y = 0; y < h; y++) for (int x = 0; x < w; x++) body`. -/
def forEachPixel (w h : Int) (body : Nat → Nat → Bitmap → Bitmap) (b : Bitmap) : Bitmap :=
  (List.range h.toNat).foldl
    (fun b1 y => (List.range w.toNat).foldl (fun b2 x => body x y b2) b1) b

/-- The values taken by the control variable of `for (int k = lo; k <= hi; k++)`. -/
def intRange (lo hi : Int) : List Int :=
  (List.range (hi + 1 - lo).toNat).map (fun t => lo + (t : Int))

/-- Modelled from the spec: `wxImage::GetSubImage(wxRect(x, y, w, h))` belongs to wxWidgets,
not to src/.  For a rectangle inside the image it is the copy of the rectangular region (spec
4.4: "extracts the pre-buffer by copying the rectangular region"); otherwise the library hands
back an invalid image, kept here as the raster of size 0 x 0. -/
def GetSubImage (image : Bitmap) (x y w h : Int) : Bitmap :=
  if 0 ≤ x ∧ 0 ≤ y ∧ 0 ≤ w ∧ 0 ≤ h ∧ x + w ≤ image.width ∧ y + h ≤ image.height then
    { width := w.toNat, height := h.toNat,
      pix := fun c r => image.pix (x.toNat + c) (y.toNat + r) }
  else
    { width := 0, height := 0, pix := fun _ _ => 0 }

/-- Modelled from the spec: `wxBitmap::GetSubBitmap`, the bitmap counterpart of `GetSubImage`
(wxWidgets, not under src/); spec 4.4: the post-buffer starts "as an identical copy". -/
def GetSubBitmap (b : Bitmap) (x y w h : Int) : Bitmap := GetSubImage b x y w h

/-! ## class ImageProcess -/

/-- Operations applied to image patches: the data members of `class ImageProcess`. -/
structure ImageProcess where
  -- filtered image area
  patch : Bitmap
  -- pre-filtered image area
  old_patch : Bitmap
  -- index of operation applied
  op_ID : Int
  -- patch upper-left corner, column
  x : Int
  -- patch upper-left corner, row
  y : Int
  -- patch width
  w : Int
  -- patch height
  h : Int
  -- true when no patch is allocated
  empty : Bool

/-- The bitmap held by a default-constructed `wxBitmap`. -/
def nullBitmap : Bitmap := { width := 0, height := 0, pix := fun _ _ => 0 }

/-- Constructor `ImageProcess::ImageProcess()`: only `empty = true` is assigned.  The source leaves the
integer members uninitialised; they are 0 here and the bitmaps are null bitmaps. -/
def ImageProcess.ImageProcess0 : ImageProcess :=
  { patch := nullBitmap, old_patch := nullBitmap, op_ID := 0, x := 0, y := 0, w := 0, h := 0,
    empty := true }

/-- Constructor `ImageProcess::ImageProcess(wxImage&, int, int, int, int, int)`. -/
def ImageProcess.ImageProcess6 (image : Bitmap) (operation x_coord y_coord width height : Int) :
    ImageProcess :=
  let patch := GetSubImage image x_coord y_coord width height
  let old_patch := GetSubBitmap patch 0 0 patch.width patch.height
  { patch := patch, old_patch := old_patch, op_ID := operation,
    w := width, h := height, x := x_coord, y := y_coord, empty := false }

/-- Method `ImageProcess::getPatchState`. -/
def ImageProcess.getPatchState (p : ImageProcess) : Bool := p.empty

/-- Method `ImageProcess::setPatchImage`: write the patch (`patch_mode` non-zero) or the old patch
(`patch_mode` zero) over the image at the patch position. -/
def ImageProcess.setPatchImage (p : ImageProcess) (image : Bitmap) (patch_mode : Int) : Bitmap :=
  let patchData := if patch_mode ≠ 0 then p.patch else p.old_patch
  forEachPixel p.w p.h
    (fun x y m => m.setPix (p.x + x).toNat (p.y + y).toNat (patchData.pix x y)) image

/-! ### Gauss filter -/

/-- Gauss kernel, 5x5 window. -/
def kernel : List (List Int) :=
  [[1, 4, 7, 4, 1],
   [4, 16, 26, 16, 4],
   [7, 26, 41, 26, 7],
   [4, 16, 26, 16, 4],
   [1, 4, 7, 4, 1]]

/-- Entry `m[a][b]` of a matrix given by rows. -/
def matAt (m : List (List Int)) (a b : Int) : Int := (m.getD a.toNat []).getD b.toNat 0

/-- Rows of the filter matrix. -/
def f_rows : Int := 5

/-- Columns of the filter matrix. -/
def f_cols : Int := 5

/-- Filter matrix center, row. -/
def center_i : Int := Int.tdiv f_rows 2

/-- Filter matrix center, column. -/
def center_j : Int := Int.tdiv f_cols 2

/-- Division coefficient: `for (i = 0; i < f_rows*f_cols; i++) div_c += *(kernel[0] + i)`. -/
def div_c : Int :=
  (List.range (f_rows * f_cols).toNat).foldl (fun d i => d + kernel.flatten.getD i 0) 0

/-- The loop over `j` of one window row `i` of `gauss_filter`, from accumulator `aux`.
The bounds test leaves the loop (`break`) at the first sample that does not fit. -/
def gaussRow (original : Bitmap) (w h x y i : Int) : List Int → Int → Int
  | [], aux => aux
  | j :: js, aux =>
    if i < 0 ∨ j < 0 ∨ i ≥ h ∨ j ≥ w then aux
    else gaussRow original w h x y i js
      (aux + (original.pix j.toNat i.toNat : Int) * matAt kernel (center_i - (y - i)) (center_j - (x - j)))

/-- The window accumulator `aux` of `gauss_filter` for the output pixel `(x, y)`. -/
def gaussWindow (original : Bitmap) (w h x y : Int) : Int :=
  (intRange (y - center_i) (y + center_i)).foldl
    (fun aux i => gaussRow original w h x y i (intRange (x - center_j) (x + center_j)) aux) 0

/-- The buffer `patch` after the pixel loops of `gauss_filter`. -/
def ImageProcess.gaussPatch (p : ImageProcess) : Bitmap :=
  forEachPixel p.w p.h
    (fun x y b => b.setPix x y (toChannel (Int.tdiv (gaussWindow p.old_patch p.w p.h x y) div_c)))
    p.patch

/-- Method `ImageProcess::gauss_filter`. -/
def ImageProcess.gauss_filter (p : ImageProcess) (image : Bitmap) : ImageProcess × Bitmap :=
  let p1 := { p with patch := p.gaussPatch }
  (p1, p1.setPatchImage image 1)

/-! ### Sobel filter -/

/-- Sobel kernel, horizontal. -/
def sx : List (List Int) := [[-1, 0, 1], [-2, 0, 2], [-1, 0, 1]]

/-- Sobel kernel, vertical. -/
def sy : List (List Int) := [[1, 2, 1], [0, 0, 0], [-1, -2, -1]]

/-- The loop over `j` of one window row `i` of `sobel_filter`, from the accumulators
`(aux_gx, aux_gy)`; kernel center is `(1, 1)`. -/
def sobelRow (original : Bitmap) (w h x y i : Int) : List Int → Int × Int → Int × Int
  | [], aux => aux
  | j :: js, aux =>
    if i < 0 ∨ j < 0 ∨ i ≥ h ∨ j ≥ w then aux
    else sobelRow original w h x y i js
      (aux.1 + (original.pix j.toNat i.toNat : Int) * matAt sx (1 - (y - i)) (1 - (x - j)),
       aux.2 + (original.pix j.toNat i.toNat : Int) * matAt sy (1 - (y - i)) (1 - (x - j)))

/-- The accumulators `(aux_gx, aux_gy)` of `sobel_filter` for the output pixel `(x, y)`. -/
def sobelWindow (original : Bitmap) (w h x y : Int) : Int × Int :=
  (intRange (y - 1) (y + 1)).foldl
    (fun aux i => sobelRow original w h x y i (intRange (x - 1) (x + 1)) aux) (0, 0)

/-- The conversion `res = (unsigned char)(sqrt(aux_gx*aux_gx + aux_gy*aux_gy))`.  The argument is an
integer below `2^53`, so the truncated double square root is the integer square root; the cast
keeps the low 8 bits. -/
def sobelRes (aux_gx aux_gy : Int) : Int :=
  ((Nat.sqrt (aux_gx * aux_gx + aux_gy * aux_gy).toNat % 256 : Nat) : Int)

/-- The buffer `patch` after the pixel loops of `sobel_filter`. -/
def ImageProcess.sobelPatch (p : ImageProcess) : Bitmap :=
  forEachPixel p.w p.h
    (fun x y b =>
      let g := sobelWindow p.old_patch p.w p.h x y
      b.setPix x y (toChannel (sobelRes g.1 g.2)))
    p.patch

/-- Method `ImageProcess::sobel_filter`. -/
def ImageProcess.sobel_filter (p : ImageProcess) (image : Bitmap) : ImageProcess × Bitmap :=
  let p1 := { p with patch := p.sobelPatch }
  (p1, p1.setPatchImage image 1)

/-! ### Contrast and negative -/

/-- The conversion `(int)` of a real number: truncation toward zero. -/
def truncToInt (q : ℚ) : Int := Int.tdiv q.num q.den

/-- The body of the pixel loop of `constrast`: the assignment of
`(int)(Red() * alpha) + beta` to the channels, then the test `if (Red() > 255)` on the stored
channel. -/
def constrastPixel (alpha : ℚ) (beta : Int) (x y : Nat) (b : Bitmap) : Bitmap :=
  let b1 := b.setPix x y (toChannel (truncToInt ((b.pix x y : ℚ) * alpha) + beta))
  if b1.pix x y > 255 then b1.setPix x y 255 else b1

/-- The buffer `patch` after the pixel loops of `constrast`. -/
def ImageProcess.constrastPatch (p : ImageProcess) (alpha : ℚ) (beta : Int) : Bitmap :=
  forEachPixel p.w p.h (constrastPixel alpha beta) p.patch

/-- Method `ImageProcess::constrast`. -/
def ImageProcess.constrast (p : ImageProcess) (image : Bitmap) (alpha : ℚ) (beta : Int) :
    ImageProcess × Bitmap :=
  let p1 := { p with patch := p.constrastPatch alpha beta }
  (p1, p1.setPatchImage image 1)

/-- The buffer `patch` after the pixel loops of `negative`: `255 ^ Red()` in every pixel. -/
def ImageProcess.negativePatch (p : ImageProcess) : Bitmap :=
  forEachPixel p.w p.h
    (fun x y b => b.setPix x y (toChannel ((255 ^^^ b.pix x y : Nat) : Int))) p.patch

/-- Method `ImageProcess::negative`. -/
def ImageProcess.negative (p : ImageProcess) (image : Bitmap) : ImageProcess × Bitmap :=
  let p1 := { p with patch := p.negativePatch }
  (p1, p1.setPatchImage image 1)

/-! ## class operationStack -/

/-- Stack of operations applied to the original image: `ImageProcess stack[STACKSIZE]` indexed
by position, and `top`. -/
structure operationStack where
  stack : Nat → ImageProcess
  top : Int

/-- The array assignment `a[i] = v`. -/
def setAt (a : Nat → ImageProcess) (i : Nat) (v : ImageProcess) : Nat → ImageProcess :=
  fun k => if k = i then v else a k

/-- Method `operationStack::freeStackOverflow`: eliminate the first element to push another. -/
def operationStack.freeStackOverflow (s : operationStack) : operationStack :=
  { stack := (List.range (STACKSIZE - 1).toNat).foldl (fun a i => setAt a i (a (i + 1))) s.stack,
    top := s.top - 1 }

/-- Constructor `operationStack::operationStack()`. -/
def operationStack.operationStack0 : operationStack :=
  { stack := (List.range STACKSIZE.toNat).foldl
      (fun a i => setAt a i ImageProcess.ImageProcess0) (fun _ => ImageProcess.ImageProcess0),
    top := -1 }

/-- Method `operationStack::getElements`. -/
def operationStack.getElements (s : operationStack) : Int := s.top + 1

/-- Method `operationStack::push`. -/
def operationStack.push (s : operationStack) (data : ImageProcess) : operationStack :=
  let s1 := if s.top = STACKSIZE - 1 then s.freeStackOverflow else s
  let top := s1.top + 1
  { stack := setAt s1.stack top.toNat data, top := top }

/-- Method `operationStack::pop`: the returned record and the stack left behind. -/
def operationStack.pop (s : operationStack) : ImageProcess × operationStack :=
  if s.top = -1 then (ImageProcess.ImageProcess0, s)
  else (s.stack s.top.toNat, { s with top := s.top - 1 })

/-- The records held by the stack, oldest first: `stack[0] .. stack[top]`. -/
def operationStack.records (s : operationStack) : List ImageProcess :=
  (List.range s.getElements.toNat).map s.stack

/-- A call made on a stack by its owner. -/
inductive StackCall where
  | push (data : ImageProcess)
  | pop

/-- Run a sequence of push and pop calls, first call first. -/
def operationStack.run (s : operationStack) (calls : List StackCall) : operationStack :=
  calls.foldl
    (fun t c =>
      match c with
      | StackCall.push data => t.push data
      | StackCall.pop => t.pop.2)
    s

/-! ## class MyFrame -/

/-- The part of `MyFrame` the three button handlers read and write: the displayed image, the
spin-control limits, the two stacks and the current values of the controls. -/
structure MyFrame where
  -- `drawPanel->getImage()`
  image : Bitmap
  -- `XYLimit[0]`
  XYLimit0 : Int
  -- `XYLimit[1]`
  XYLimit1 : Int
  undoStack : operationStack
  redoStack : operationStack
  -- `filterList->GetSelection()`
  filterList : Int
  -- `xUpperLeft->GetValue()`
  xUpperLeft : Int
  -- `yUpperLeft->GetValue()`
  yUpperLeft : Int
  -- `width->GetValue()`
  width : Int
  -- `height->GetValue()`
  height : Int
  -- `alpha->GetValue()`
  alpha : ℚ
  -- `beta->GetValue()`
  beta : Int

/-- Array of pointers to member functions, in the order of the list box. -/
def opArr : List (ImageProcess → Bitmap → ImageProcess × Bitmap) :=
  [ImageProcess.sobel_filter, ImageProcess.negative, ImageProcess.gauss_filter]

/-- The call `(img_op.*opArr[k])(image)`.  An index outside the array is undefined in the
source; the patch and the image are then left as they are. -/
def callOp (k : Int) (img_op : ImageProcess) (image : Bitmap) : ImageProcess × Bitmap :=
  if 0 ≤ k then (opArr.getD k.toNat (fun p m => (p, m))) img_op image else (img_op, image)

/-- Method `MyFrame::OnButtonApplyClick`. -/
def MyFrame.OnButtonApplyClick (f : MyFrame) : MyFrame :=
  let operation := f.filterList
  let image := f.image
  let img_op :=
    if f.width = 0 ∧ f.height = 0 then
      ImageProcess.ImageProcess6 image operation 0 0 f.XYLimit0 f.XYLimit1
    else
      ImageProcess.ImageProcess6 image operation f.xUpperLeft f.yUpperLeft f.width f.height
  let res :=
    if operation < 3 then callOp f.filterList img_op image
    else img_op.constrast image f.alpha f.beta
  { f with image := res.2, undoStack := f.undoStack.push res.1 }

/-- Method `MyFrame::OnButtonUndoClick`. -/
def MyFrame.OnButtonUndoClick (f : MyFrame) : MyFrame :=
  let popped := f.undoStack.pop
  let img_op := popped.1
  { f with image := img_op.setPatchImage f.image 0,
           undoStack := popped.2,
           redoStack := f.redoStack.push img_op }

/-- Method `MyFrame::OnButtonRedoClick`. -/
def MyFrame.OnButtonRedoClick (f : MyFrame) : MyFrame :=
  let popped := f.redoStack.pop
  let img_op := popped.1
  { f with image := img_op.setPatchImage f.image 1,
           redoStack := popped.2,
           undoStack := f.undoStack.push img_op }

/-! ## Vocabulary of the statements -/

/-- The states a stack can be in: `top` between -1 and `STACKSIZE - 1`. -/
def operationStack.Valid (s : operationStack) : Prop := -1 ≤ s.top ∧ s.top ≤ STACKSIZE - 1

/-- Two images are equal pixel for pixel: same size, same intensity at every pixel. -/
def sameImage (a b : Bitmap) : Prop :=
  a.width = b.width ∧ a.height = b.height
    ∧ ∀ c r, c < a.width → r < a.height → a.pix c r = b.pix c r

/-- The 10 x 10 image with every pixel 0. -/
def blank10 : Bitmap := { width := 10, height := 10, pix := fun _ _ => 0 }

/-- A frame showing `blank10`, both stacks as constructed, "Invertir" selected in the list box
and the rectangle (2, 2, 3, 3) in the spin controls. -/
def frame10 : MyFrame :=
  { image := blank10, XYLimit0 := 10, XYLimit1 := 10,
    undoStack := operationStack.operationStack0, redoStack := operationStack.operationStack0,
    filterList := 1, xUpperLeft := 2, yUpperLeft := 2, width := 3, height := 3,
    alpha := 1, beta := 0 }

/-- The 5 x 5 image with every pixel 255. -/
def white5 : Bitmap := { width := 5, height := 5, pix := fun _ _ => 255 }

/-- The 2 x 2 image with every pixel 200. -/
def gray2 : Bitmap := { width := 2, height := 2, pix := fun _ _ => 200 }

/-- The 3 x 3 image whose pixel at column 2, row 0 is 2 and whose other pixels are 0. -/
def corner3 : Bitmap :=
  { width := 3, height := 3, pix := fun c r => if c = 2 ∧ r = 0 then 2 else 0 }

/-- The sum S of the smoothing rule in the words of the spec: every sample of the 5 x 5 neighbourhood
of `(x, y)` that lies inside the `w` x `h` patch contributes `input(x+j, y+i) * kernel[2+i][2+j]`;
a sample outside the patch contributes nothing. -/
def specGaussSum (original : Bitmap) (w h x y : Int) : Int :=
  ((intRange (-2) 2).map (fun i =>
    ((intRange (-2) 2).map (fun j =>
      if 0 ≤ x + j ∧ x + j < w ∧ 0 ≤ y + i ∧ y + i < h then
        (original.pix (x + j).toNat (y + i).toNat : Int) * matAt kernel (2 + i) (2 + j)
      else 0)).sum)).sum

/-- The output pixel of the smoothing rule in the words of the spec: S divided by the kernel sum 273
(integer division). -/
def specGaussPixel (original : Bitmap) (w h x y : Int) : Int :=
  specGaussSum original w h x y / 273

/-- The 10 x 10 image whose pixel at column `c`, row `r` is `10 * r + c`. -/
def ramp10 : Bitmap := { width := 10, height := 10, pix := fun c r => 10 * r + c }

/-- A record told apart by its operation index: a 1 x 1 patch of `blank10` at the origin. -/
def sampleRecord (k : Int) : ImageProcess := ImageProcess.ImageProcess6 blank10 k 0 0 1 1

/-- The stack after pushing `sampleRecord 0` to `sampleRecord 9` on a freshly constructed one. -/
def fullStack : operationStack :=
  (((((((((operationStack.operationStack0.push (sampleRecord 0)).push (sampleRecord 1)).push
    (sampleRecord 2)).push (sampleRecord 3)).push (sampleRecord 4)).push (sampleRecord 5)).push
    (sampleRecord 6)).push (sampleRecord 7)).push (sampleRecord 8)).push (sampleRecord 9)

/-- The frame `frame10` after Apply, Apply, Undo: one record on each stack. -/
def frame10b : MyFrame := frame10.OnButtonApplyClick.OnButtonApplyClick.OnButtonUndoClick

/-- The record at the top of a stack, `stack[top]`. -/
def operationStack.topRecord (s : operationStack) : ImageProcess := s.stack s.top.toNat

/-- A record fits an image: it is marked valid and its rectangle lies inside the image
(`0 <= x`, `0 <= y`, `x + w <= W`, `y + h <= H`).  On such a record the raw pixel iterator of
`setPatchImage` stays inside the bitmap. -/
def ImageProcess.fits (p : ImageProcess) (image : Bitmap) : Prop :=
  p.getPatchState = false ∧ 0 ≤ p.x ∧ 0 ≤ p.y
    ∧ p.x + p.w ≤ image.width ∧ p.y + p.h ≤ image.height

/-! ## The buttons and the user -/

/-- The three buttons of the option panel: "Deshacer", "Rehacer", "Aplicar". -/
inductive Button where
  | undoBtn
  | redoBtn
  | apply

/-- The frame together with the enabled state of its three buttons (`undoBtn->Enable()` /
`Disable()` and so on); in the source these are members of `MyFrame` too. -/
structure Session where
  frame : MyFrame
  undoBtn : Bool
  redoBtn : Bool
  applyBtn : Bool

/-- Method `MyFrame::updateUndoRedo`: enable or disable the Undo and Redo buttons checking their
respective stack. -/
def Session.updateUndoRedo (s : Session) : Session :=
  { s with
    undoBtn := if s.frame.undoStack.getElements = 0 then false else true,
    redoBtn := if s.frame.redoStack.getElements = 0 then false else true }

/-- The whole of `MyFrame::OnButtonApplyClick`: the operation, the push, then the call of
`updateUndoRedo`. -/
def Session.OnButtonApplyClick (s : Session) : Session :=
  Session.updateUndoRedo { s with frame := s.frame.OnButtonApplyClick }

/-- The whole of `MyFrame::OnButtonUndoClick`, with its call of `updateUndoRedo`. -/
def Session.OnButtonUndoClick (s : Session) : Session :=
  Session.updateUndoRedo { s with frame := s.frame.OnButtonUndoClick }

/-- The whole of `MyFrame::OnButtonRedoClick`, with its call of `updateUndoRedo`. -/
def Session.OnButtonRedoClick (s : Session) : Session :=
  Session.updateUndoRedo { s with frame := s.frame.OnButtonRedoClick }

/-- Method `MyFrame::OnListBoxSelection` for the entry `k` of the list box: the Apply button is
enabled. -/
def Session.OnListBoxSelection (s : Session) (k : Int) : Session :=
  { s with frame := { s.frame with filterList := k }, applyBtn := true }

/-- What the user can do on the option panel while one image is shown. -/
inductive UserAction where
  | select (k : Int)
  | spin (x y w h : Int)
  | coefficients (alpha : ℚ) (beta : Int)
  | click (b : Button)

/-- The frame right after its constructor `MyFrame::MyFrame`, or after a first `OnOpen`, showing
`image`: both stacks as constructed, the three buttons disabled, no list entry selected
(`wxNOT_FOUND` is -1), the spin controls at their reset values, the limits at the image size. -/
def Session.start (image : Bitmap) : Session :=
  { frame :=
      { image := image, XYLimit0 := image.width, XYLimit1 := image.height,
        undoStack := operationStack.operationStack0, redoStack := operationStack.operationStack0,
        filterList := -1, xUpperLeft := 0, yUpperLeft := 0, width := 0, height := 0,
        alpha := 1, beta := 0 },
    undoBtn := false, redoBtn := false, applyBtn := false }

/-- Modelled from the spec: how wxWidgets (not under src/) delivers what the user does.  A click
reaches its handler only when the button is enabled (spec 7: an empty history is handled by
"simply disable the corresponding action"); the list box offers its four entries; the spin
controls hold only values inside their ranges, which `SetRange` keeps inside the image. -/
def Session.act (s : Session) : UserAction → Session
  | UserAction.select k =>
    if 0 ≤ k ∧ k ≤ 3 then s.OnListBoxSelection k else s
  | UserAction.spin x y w h =>
    if 0 ≤ x ∧ 0 ≤ y ∧ 0 ≤ w ∧ 0 ≤ h ∧ x + w ≤ s.frame.XYLimit0 ∧ y + h ≤ s.frame.XYLimit1 then
      { s with frame := { s.frame with xUpperLeft := x, yUpperLeft := y, width := w, height := h } }
    else s
  | UserAction.coefficients alpha beta =>
    { s with frame := { s.frame with alpha := alpha, beta := beta } }
  | UserAction.click Button.undoBtn => if s.undoBtn = true then s.OnButtonUndoClick else s
  | UserAction.click Button.redoBtn => if s.redoBtn = true then s.OnButtonRedoClick else s
  | UserAction.click Button.apply => if s.applyBtn = true then s.OnButtonApplyClick else s

/-- A sequence of user actions, first action first. -/
def Session.run (s : Session) (acts : List UserAction) : Session := acts.foldl Session.act s

/-- What every session reached from `Session.start` satisfies. -/
structure Session.Inv (s : Session) : Prop where
  undoValid : s.frame.undoStack.Valid
  redoValid : s.frame.redoStack.Valid
  limits : s.frame.XYLimit0 = s.frame.image.width ∧ s.frame.XYLimit1 = s.frame.image.height
  inside : 0 ≤ s.frame.xUpperLeft ∧ 0 ≤ s.frame.yUpperLeft
    ∧ s.frame.xUpperLeft + s.frame.width ≤ s.frame.image.width
    ∧ s.frame.yUpperLeft + s.frame.height ≤ s.frame.image.height
  selected : s.applyBtn = true →
    (s.frame.filterList = 0 ∨ s.frame.filterList = 1 ∨ s.frame.filterList = 2
      ∨ s.frame.filterList = 3)
  undoGate : s.undoBtn = true ↔ s.frame.undoStack.getElements ≠ 0
  redoGate : s.redoBtn = true ↔ s.frame.redoStack.getElements ≠ 0
  undoFit : ∀ r ∈ s.frame.undoStack.records, r.fits s.frame.image
  redoFit : ∀ r ∈ s.frame.redoStack.records, r.fits s.frame.image

/-- The session on `blank10` after selecting "Invertir", setting the rectangle (2, 2, 3, 3),
Apply and Undo: the undo stack is without records again and the redo stack holds one. -/
def session10 : Session :=
  (Session.start blank10).run
    [UserAction.select 1, UserAction.spin 2 2 3 3, UserAction.click Button.apply,
     UserAction.click Button.undoBtn]

/-! ## The operation stack -/

theorem shift_fold (n : Nat) (a : Nat → ImageProcess) :
    (List.range n).foldl (fun a1 i => setAt a1 i (a1 (i + 1))) a
      = fun k => if k < n then a (k + 1) else a k := by
  induction n with
  | zero => simp
  | succ n ih =>
    rw [List.range_succ, List.foldl_append, ih]
    funext k
    simp only [List.foldl_cons, List.foldl_nil, setAt]
    by_cases h1 : k = n
    · subst h1; simp
    · by_cases h2 : k < n
      · have : k < n + 1 := by omega
        simp [h1, h2, this]
      · have : ¬ k < n + 1 := by omega
        simp [h1, h2, this]

theorem freeStackOverflow_stack (s : operationStack) (k : Nat) :
    s.freeStackOverflow.stack k = if k < 9 then s.stack (k + 1) else s.stack k := by
  have h9 : (STACKSIZE - 1).toNat = 9 := by decide
  simp only [operationStack.freeStackOverflow, h9, shift_fold]

theorem map_setAt_range (a : Nat → ImageProcess) (n : Nat) (v : ImageProcess) :
    (List.range n).map (setAt a n v) = (List.range n).map a := by
  apply List.map_congr_left
  intro k hk
  have : k ≠ n := by
    have := List.mem_range.mp hk
    omega
  simp [setAt, this]

theorem records_push_room (s : operationStack) (r : ImageProcess)
    (h1 : -1 ≤ s.top) (h2 : s.top < STACKSIZE - 1) :
    (s.push r).records = s.records ++ [r] ∧ (s.push r).getElements = s.getElements + 1 := by
  have hne : ¬ s.top = STACKSIZE - 1 := by omega
  have hn : (s.top + 1 + 1).toNat = (s.top + 1).toNat + 1 := by omega
  simp only [operationStack.push, hne, if_false, operationStack.records,
    operationStack.getElements, hn, List.range_succ, List.map_append, map_setAt_range,
    List.map_cons, List.map_nil, setAt, if_true, and_self]

theorem records_push_full (s : operationStack) (r : ImageProcess) (h : s.top = STACKSIZE - 1) :
    (s.push r).records = s.records.tail ++ [r] ∧ (s.push r).getElements = STACKSIZE := by
  have h9 : s.top = 9 := by simpa [STACKSIZE] using h
  have e1 : (9 - 1 + 1 + 1 : Int).toNat = 10 := by decide
  have e2 : (9 + 1 : Int).toNat = 10 := by decide
  have e3 : (9 - 1 + 1 : Int).toNat = 9 := by decide
  constructor
  · simp [operationStack.push, h, operationStack.records, operationStack.getElements,
      operationStack.freeStackOverflow, h9, e1, e2, e3, List.range_succ, setAt,
      freeStackOverflow_stack, shift_fold, STACKSIZE]
  · simp [operationStack.push, h, operationStack.getElements, operationStack.freeStackOverflow,
      STACKSIZE]

theorem push_valid (s : operationStack) (r : ImageProcess) (hv : s.Valid) : (s.push r).Valid := by
  obtain ⟨h1, h2⟩ := hv
  by_cases h : s.top = STACKSIZE - 1
  · simp [operationStack.Valid, operationStack.push, h, operationStack.freeStackOverflow, STACKSIZE]
  · have h3 : s.top ≤ 9 := by simpa [STACKSIZE] using h2
    have h4 : s.top ≠ 9 := by simpa [STACKSIZE] using h
    have hpt : (s.push r).top = s.top + 1 := by
      simp only [operationStack.push, h, if_false]
    simp only [operationStack.Valid, hpt, STACKSIZE]
    omega

theorem pop_valid (s : operationStack) (hv : s.Valid) : s.pop.2.Valid := by
  obtain ⟨h1, h2⟩ := hv
  by_cases h : s.top = -1
  · simp [operationStack.pop, h, operationStack.Valid, STACKSIZE]
  · simp only [operationStack.Valid, operationStack.pop, h, if_false]
    omega

theorem operationStack0_valid : operationStack.operationStack0.Valid := by
  simp [operationStack.Valid, operationStack.operationStack0, STACKSIZE]

theorem run_valid (calls : List StackCall) (s : operationStack) (hv : s.Valid) :
    (s.run calls).Valid := by
  induction calls generalizing s with
  | nil => simpa [operationStack.run] using hv
  | cons c cs ih =>
    cases c with
    | push data => exact ih _ (push_valid s data hv)
    | pop => exact ih _ (pop_valid s hv)

theorem pop_push (s : operationStack) (r : ImageProcess) (hv : s.Valid) :
    (s.push r).pop.1 = r ∧ (s.push r).pop.2.top = (s.push r).top - 1
      ∧ (s.push r).pop.2.stack = (s.push r).stack := by
  have hp := push_valid s r hv
  obtain ⟨h1, h2⟩ := hv
  have hne : (s.push r).top ≠ -1 := by
    by_cases h : s.top = STACKSIZE - 1
    · simp [operationStack.push, h, operationStack.freeStackOverflow, STACKSIZE]
    · simp only [operationStack.push, h, if_false]
      omega
  refine ⟨?_, ?_, ?_⟩
  · simp only [operationStack.pop, hne, if_false]
    simp [operationStack.push, setAt]
  · simp only [operationStack.pop, hne, if_false]
  · simp only [operationStack.pop, hne, if_false]

/-- C2. A push onto a stack that holds `STACKSIZE = 10` records `r0 .. r9` (oldest first) leaves
exactly 10 records, `r1 .. r9` followed by the pushed record: the oldest record is the one that
is dropped.  In particular eleven pushes on a freshly constructed stack leave the last ten records
in push order. -/
theorem push_on_full_stack_drops_oldest
    (s : operationStack) (r0 r1 r2 r3 r4 r5 r6 r7 r8 r9 r : ImageProcess)
    (hs : s.records = [r0, r1, r2, r3, r4, r5, r6, r7, r8, r9]) :
    (s.push r).records = [r1, r2, r3, r4, r5, r6, r7, r8, r9, r]
      ∧ (s.push r).getElements = 10
      ∧ ∀ q0 q1 q2 q3 q4 q5 q6 q7 q8 q9 q10 : ImageProcess,
          ((((((((((((operationStack.operationStack0.push q0).push q1).push q2).push q3).push q4).push
            q5).push q6).push q7).push q8).push q9).push q10).records
            = [q1, q2, q3, q4, q5, q6, q7, q8, q9, q10])
          ∧ ((((((((((((operationStack.operationStack0.push q0).push q1).push q2).push q3).push
            q4).push q5).push q6).push q7).push q8).push q9).push q10).getElements = 10) := by
  have hlen : s.getElements.toNat = 10 := by
    have := congrArg List.length hs
    simpa [operationStack.records] using this
  have htop : s.top = STACKSIZE - 1 := by
    simp only [operationStack.getElements, STACKSIZE] at hlen ⊢
    omega
  obtain ⟨hr, he⟩ := records_push_full s r htop
  refine ⟨?_, ?_, ?_⟩
  · rw [hr, hs]; rfl
  · simpa [STACKSIZE] using he
  · intro q0 q1 q2 q3 q4 q5 q6 q7 q8 q9 q10
    have step : ∀ (t : operationStack) (q : ImageProcess) (k : Int), t.top = k → -1 ≤ k → k < 9 →
        (t.push q).records = t.records ++ [q] ∧ (t.push q).top = k + 1 := by
      intro t q k hk hk1 hk2
      have hlt : t.top < STACKSIZE - 1 := by simp only [STACKSIZE]; omega
      have hne : ¬ t.top = STACKSIZE - 1 := by omega
      refine ⟨(records_push_room t q (by omega) hlt).1, ?_⟩
      simp only [operationStack.push, hne, if_false]
      omega
    have e0 : operationStack.operationStack0.records = [] := by
      simp [operationStack.records, operationStack.getElements, operationStack.operationStack0]
    have t0 : operationStack.operationStack0.top = -1 := rfl
    obtain ⟨a0, b0⟩ := step _ q0 _ t0 (by decide) (by decide)
    obtain ⟨a1, b1⟩ := step _ q1 _ b0 (by decide) (by decide)
    obtain ⟨a2, b2⟩ := step _ q2 _ b1 (by decide) (by decide)
    obtain ⟨a3, b3⟩ := step _ q3 _ b2 (by decide) (by decide)
    obtain ⟨a4, b4⟩ := step _ q4 _ b3 (by decide) (by decide)
    obtain ⟨a5, b5⟩ := step _ q5 _ b4 (by decide) (by decide)
    obtain ⟨a6, b6⟩ := step _ q6 _ b5 (by decide) (by decide)
    obtain ⟨a7, b7⟩ := step _ q7 _ b6 (by decide) (by decide)
    obtain ⟨a8, b8⟩ := step _ q8 _ b7 (by decide) (by decide)
    obtain ⟨a9, b9⟩ := step _ q9 _ b8 (by decide) (by decide)
    have hfull : ((((((((((operationStack.operationStack0.push q0).push q1).push q2).push q3).push
        q4).push q5).push q6).push q7).push q8).push q9).top = STACKSIZE - 1 := by
      rw [b9]; decide
    obtain ⟨hr2, he2⟩ := records_push_full _ q10 hfull
    refine ⟨?_, by simpa [STACKSIZE] using he2⟩
    rw [hr2, a9, a8, a7, a6, a5, a4, a3, a2, a1, a0, e0]
    rfl

/-- C3. After any sequence of push and pop calls on a freshly constructed stack the element
count is between 0 and `STACKSIZE = 10`, and `top` is between -1 and 9. -/
theorem element_count_stays_within_capacity (calls : List StackCall) :
    0 ≤ (operationStack.operationStack0.run calls).getElements
      ∧ (operationStack.operationStack0.run calls).getElements ≤ STACKSIZE
      ∧ -1 ≤ (operationStack.operationStack0.run calls).top
      ∧ (operationStack.operationStack0.run calls).top ≤ 9 := by
  have hv := run_valid calls _ operationStack0_valid
  simp only [operationStack.Valid, STACKSIZE, operationStack.getElements] at hv ⊢
  omega

/-- C4. On a stack in a valid state, `pop` right after `push r` returns `r`; when the stack held
fewer than 10 records before the push, the stack after the pop holds the same records in the
same order and has the same count as before the push. -/
theorem pop_after_push_returns_pushed (s : operationStack) (r : ImageProcess) (hv : s.Valid) :
    (s.push r).pop.1 = r
      ∧ (s.getElements < 10 →
          (s.push r).pop.2.records = s.records
            ∧ (s.push r).pop.2.getElements = s.getElements) := by
  obtain ⟨hret, htop, hstack⟩ := pop_push s r hv
  refine ⟨hret, ?_⟩
  intro hlt
  obtain ⟨h1, h2⟩ := hv
  have hlt2 : s.top < STACKSIZE - 1 := by
    simp only [operationStack.getElements, STACKSIZE] at hlt ⊢
    omega
  have hne : ¬ s.top = STACKSIZE - 1 := by omega
  have hpt : (s.push r).top = s.top + 1 := by
    simp only [operationStack.push, hne, if_false]
  have hps : (s.push r).stack = setAt s.stack (s.top + 1).toNat r := by
    simp only [operationStack.push, hne, if_false]
  have hcount : (s.push r).pop.2.getElements = s.getElements := by
    simp only [operationStack.getElements, htop, hpt]
    omega
  refine ⟨?_, hcount⟩
  simp only [operationStack.records, hcount, hstack, hps]
  exact map_setAt_range s.stack _ r

/-- C5 (as the code has it). `pop` on a stack with no elements does not fail: it returns the
default-constructed record, whose state flag says "empty", and leaves the stack as it was, with
element count 0. -/
theorem pop_on_empty_returns_default_record (s : operationStack) (h : s.getElements = 0) :
    s.pop.1 = ImageProcess.ImageProcess0
      ∧ s.pop.1.getPatchState = true
      ∧ s.pop.2 = s
      ∧ s.pop.2.getElements = 0 := by
  have ht : s.top = -1 := by
    simp only [operationStack.getElements] at h
    omega
  simp [operationStack.pop, ht, operationStack.getElements, ImageProcess.getPatchState,
    ImageProcess.ImageProcess0]

/-- C5, counterexample: on the freshly constructed stack, which has no elements, `pop` hands back a
record (the default-constructed one) instead of failing. -/
theorem pop_on_empty_gives_a_record :
    operationStack.operationStack0.getElements = 0
      ∧ operationStack.operationStack0.pop.1 = ImageProcess.ImageProcess0 := by
  constructor <;> rfl

/-! ## The raster scan -/

theorem setPix_pix (b : Bitmap) (c r v c1 r1 : Nat) :
    (b.setPix c r v).pix c1 r1 = if c1 = c ∧ r1 = r then v else b.pix c1 r1 := rfl

theorem scanRow_pix (g : Nat → Nat → Nat → Nat) (ox oy y n : Nat) (b : Bitmap) (c r : Nat) :
    ((List.range n).foldl
        (fun b2 x => b2.setPix (ox + x) (oy + y) (g x y (b2.pix (ox + x) (oy + y)))) b).pix c r
      = if r = oy + y ∧ ox ≤ c ∧ c < ox + n then g (c - ox) y (b.pix c r) else b.pix c r := by
  induction n generalizing c r with
  | zero =>
    have h0 : ¬ (r = oy + y ∧ ox ≤ c ∧ c < ox + 0) := by omega
    rw [if_neg h0]
    rfl
  | succ n ih =>
    rw [List.range_succ, List.foldl_append]
    simp only [List.foldl_cons, List.foldl_nil, setPix_pix]
    by_cases h1 : c = ox + n ∧ r = oy + y
    · obtain ⟨hc, hr⟩ := h1
      subst hc; subst hr
      rw [ih]
      simp
    · rw [if_neg h1, ih]
      by_cases h2 : r = oy + y ∧ ox ≤ c ∧ c < ox + n
      · have h3 : r = oy + y ∧ ox ≤ c ∧ c < ox + (n + 1) := ⟨h2.1, h2.2.1, by omega⟩
        rw [if_pos h2, if_pos h3]
      · have h3 : ¬ (r = oy + y ∧ ox ≤ c ∧ c < ox + (n + 1)) := by
          intro h
          apply h2
          refine ⟨h.1, h.2.1, ?_⟩
          by_contra h4
          apply h1
          exact ⟨by omega, h.1⟩
        rw [if_neg h2, if_neg h3]

theorem forEachPixel_pix (g : Nat → Nat → Nat → Nat) (ox oy : Nat) (w h : Int) (b : Bitmap)
    (c r : Nat) :
    (forEachPixel w h
        (fun x y b2 => b2.setPix (ox + x) (oy + y) (g x y (b2.pix (ox + x) (oy + y)))) b).pix c r
      = if ox ≤ c ∧ c < ox + w.toNat ∧ oy ≤ r ∧ r < oy + h.toNat
          then g (c - ox) (r - oy) (b.pix c r) else b.pix c r := by
  unfold forEachPixel
  generalize h.toNat = m
  induction m generalizing c r with
  | zero =>
    have h0 : ¬ (ox ≤ c ∧ c < ox + w.toNat ∧ oy ≤ r ∧ r < oy + 0) := by omega
    rw [if_neg h0]
    rfl
  | succ m ih =>
    rw [List.range_succ, List.foldl_append]
    simp only [List.foldl_cons, List.foldl_nil]
    rw [scanRow_pix, ih]
    by_cases h1 : r = oy + m ∧ ox ≤ c ∧ c < ox + w.toNat
    · obtain ⟨hr, hc1, hc2⟩ := h1
      subst hr
      have h2 : ¬ (ox ≤ c ∧ c < ox + w.toNat ∧ oy ≤ oy + m ∧ oy + m < oy + m) := by omega
      have h3 : ox ≤ c ∧ c < ox + w.toNat ∧ oy ≤ oy + m ∧ oy + m < oy + (m + 1) := by omega
      have h4 : oy + m = oy + m ∧ ox ≤ c ∧ c < ox + w.toNat := ⟨rfl, hc1, hc2⟩
      rw [if_pos h4, if_neg h2, if_pos h3]
      simp
    · rw [if_neg h1]
      by_cases h2 : ox ≤ c ∧ c < ox + w.toNat ∧ oy ≤ r ∧ r < oy + m
      · have h3 : ox ≤ c ∧ c < ox + w.toNat ∧ oy ≤ r ∧ r < oy + (m + 1) := by omega
        rw [if_pos h2, if_pos h3]
      · have h3 : ¬ (ox ≤ c ∧ c < ox + w.toNat ∧ oy ≤ r ∧ r < oy + (m + 1)) := by omega
        rw [if_neg h2, if_neg h3]

theorem forEachPixel_pix0 (g : Nat → Nat → Nat → Nat) (w h : Int) (b : Bitmap) (c r : Nat) :
    (forEachPixel w h (fun x y b2 => b2.setPix x y (g x y (b2.pix x y))) b).pix c r
      = if c < w.toNat ∧ r < h.toNat then g c r (b.pix c r) else b.pix c r := by
  have := forEachPixel_pix g 0 0 w h b c r
  simpa using this

theorem forEachPixel_size (w h : Int) (body : Nat → Nat → Bitmap → Bitmap)
    (hb : ∀ x y b, (body x y b).width = b.width ∧ (body x y b).height = b.height) (b : Bitmap) :
    (forEachPixel w h body b).width = b.width ∧ (forEachPixel w h body b).height = b.height := by
  have inner : ∀ (y : Nat) (l : List Nat) (b1 : Bitmap),
      (l.foldl (fun b2 x => body x y b2) b1).width = b1.width
        ∧ (l.foldl (fun b2 x => body x y b2) b1).height = b1.height := by
    intro y l
    induction l with
    | nil => intro b1; exact ⟨rfl, rfl⟩
    | cons a l ih =>
      intro b1
      simp only [List.foldl_cons]
      exact ⟨(ih _).1.trans (hb a y b1).1, (ih _).2.trans (hb a y b1).2⟩
  unfold forEachPixel
  generalize List.range h.toNat = rows
  induction rows generalizing b with
  | nil => exact ⟨rfl, rfl⟩
  | cons a l ih =>
    simp only [List.foldl_cons]
    exact ⟨(ih _).1.trans (inner a _ b).1, (ih _).2.trans (inner a _ b).2⟩

theorem setPatchImage_size (p : ImageProcess) (image : Bitmap) (mode : Int) :
    (p.setPatchImage image mode).width = image.width
      ∧ (p.setPatchImage image mode).height = image.height := by
  simp only [ImageProcess.setPatchImage]
  apply forEachPixel_size
  intro x y b
  exact ⟨rfl, rfl⟩

theorem setPatchImage_pix (p : ImageProcess) (image : Bitmap) (mode : Int)
    (hx : 0 ≤ p.x) (hy : 0 ≤ p.y) (c r : Nat) :
    (p.setPatchImage image mode).pix c r
      = if p.x.toNat ≤ c ∧ c < p.x.toNat + p.w.toNat ∧ p.y.toNat ≤ r ∧ r < p.y.toNat + p.h.toNat
          then (if mode ≠ 0 then p.patch else p.old_patch).pix (c - p.x.toNat) (r - p.y.toNat)
          else image.pix c r := by
  have hbody : (fun (x y : Nat) (m : Bitmap) =>
        m.setPix (p.x + x).toNat (p.y + y).toNat
          ((if mode ≠ 0 then p.patch else p.old_patch).pix x y))
      = (fun (x y : Nat) (m : Bitmap) =>
        m.setPix (p.x.toNat + x) (p.y.toNat + y)
          ((fun a b _ => (if mode ≠ 0 then p.patch else p.old_patch).pix a b) x y
            (m.pix (p.x.toNat + x) (p.y.toNat + y)))) := by
    funext x y m
    have e1 : (p.x + x).toNat = p.x.toNat + x := by omega
    have e2 : (p.y + y).toNat = p.y.toNat + y := by omega
    rw [e1, e2]
  simp only [ImageProcess.setPatchImage]
  rw [hbody]
  exact forEachPixel_pix (fun a b _ => (if mode ≠ 0 then p.patch else p.old_patch).pix a b)
    p.x.toNat p.y.toNat p.w p.h image c r

theorem GetSubImage_pix (image : Bitmap) (x y w h : Int)
    (hin : 0 ≤ x ∧ 0 ≤ y ∧ 0 ≤ w ∧ 0 ≤ h ∧ x + w ≤ image.width ∧ y + h ≤ image.height)
    (c r : Nat) :
    (GetSubImage image x y w h).pix c r = image.pix (x.toNat + c) (y.toNat + r)
      ∧ (GetSubImage image x y w h).width = w.toNat
      ∧ (GetSubImage image x y w h).height = h.toNat := by
  simp only [GetSubImage, if_pos hin, and_self]

theorem GetSubBitmap_whole (b : Bitmap) (c r : Nat) :
    (GetSubBitmap b 0 0 b.width b.height).pix c r = b.pix c r := by
  have hin : (0 : Int) ≤ 0 ∧ (0 : Int) ≤ 0 ∧ (0 : Int) ≤ b.width ∧ (0 : Int) ≤ b.height
      ∧ (0 : Int) + b.width ≤ b.width ∧ (0 : Int) + b.height ≤ b.height := by omega
  have := (GetSubImage_pix b 0 0 b.width b.height hin c r).1
  simpa [GetSubBitmap] using this

theorem ImageProcess6_buffers (image : Bitmap) (operation x y w h : Int)
    (hx : 0 ≤ x) (hy : 0 ≤ y) (hw : x + w ≤ image.width) (hh : y + h ≤ image.height)
    (c r : Nat) (hc : (c : Int) < w) (hr : (r : Int) < h) :
    (ImageProcess.ImageProcess6 image operation x y w h).old_patch.pix c r
        = image.pix (x.toNat + c) (y.toNat + r)
      ∧ (ImageProcess.ImageProcess6 image operation x y w h).patch.pix c r
        = image.pix (x.toNat + c) (y.toNat + r) := by
  have hin : 0 ≤ x ∧ 0 ≤ y ∧ 0 ≤ w ∧ 0 ≤ h ∧ x + w ≤ image.width ∧ y + h ≤ image.height := by
    omega
  have h1 := (GetSubImage_pix image x y w h hin c r).1
  refine ⟨?_, h1⟩
  simp only [ImageProcess.ImageProcess6]
  rw [GetSubBitmap_whole, h1]

/-! ## Patch construction, undo and redo -/

theorem undo_redo_core (p : ImageProcess) (image : Bitmap) (hx : 0 ≤ p.x) (hy : 0 ≤ p.y)
    (hold : ∀ c r : Nat, (c : Int) < p.w → (r : Int) < p.h →
      p.old_patch.pix c r = image.pix (p.x.toNat + c) (p.y.toNat + r)) :
    sameImage (p.setPatchImage (p.setPatchImage image 1) 0) image
      ∧ sameImage (p.setPatchImage (p.setPatchImage (p.setPatchImage image 1) 0) 1)
          (p.setPatchImage image 1) := by
  have s1 := setPatchImage_size p image 1
  have s2 := setPatchImage_size p (p.setPatchImage image 1) 0
  have s3 := setPatchImage_size p (p.setPatchImage (p.setPatchImage image 1) 0) 1
  have hundo : ∀ c r, (p.setPatchImage (p.setPatchImage image 1) 0).pix c r = image.pix c r := by
    intro c r
    rw [setPatchImage_pix p _ 0 hx hy, setPatchImage_pix p _ 1 hx hy]
    by_cases hin : p.x.toNat ≤ c ∧ c < p.x.toNat + p.w.toNat ∧ p.y.toNat ≤ r
        ∧ r < p.y.toNat + p.h.toNat
    · rw [if_pos hin]
      have e := hold (c - p.x.toNat) (r - p.y.toNat) (by omega) (by omega)
      have e1 : p.x.toNat + (c - p.x.toNat) = c := by omega
      have e2 : p.y.toNat + (r - p.y.toNat) = r := by omega
      rw [e1, e2] at e
      simpa using e
    · rw [if_neg hin, if_neg hin]
  refine ⟨⟨s2.1.trans s1.1, s2.2.trans s1.2, fun c r _ _ => hundo c r⟩,
    ⟨s3.1.trans s2.1, s3.2.trans s2.2, ?_⟩⟩
  intro c r _ _
  rw [setPatchImage_pix p _ 1 hx hy, setPatchImage_pix p image 1 hx hy]
  by_cases hin : p.x.toNat ≤ c ∧ c < p.x.toNat + p.w.toNat ∧ p.y.toNat ≤ r
      ∧ r < p.y.toNat + p.h.toNat
  · rw [if_pos hin, if_pos hin]
  · rw [if_neg hin, if_neg hin, hundo]

theorem pop_push_fst (s : operationStack) (r : ImageProcess) (hv : s.Valid) :
    (s.push r).pop.1 = r := (pop_push s r hv).1

/-- C1. Take a frame whose stacks are in a valid state, whose limits are the image size, with
one of the four filters selected and a rectangle inside the image in the spin controls.  After
Apply, Undo gives an image equal pixel for pixel to the image before the Apply, and a following
Redo gives an image equal pixel for pixel to the image right after the Apply. -/
theorem undo_restores_and_redo_reapplies (f : MyFrame)
    (hu : f.undoStack.Valid) (hr : f.redoStack.Valid)
    (hlim : f.XYLimit0 = f.image.width ∧ f.XYLimit1 = f.image.height)
    (hop : f.filterList = 0 ∨ f.filterList = 1 ∨ f.filterList = 2 ∨ f.filterList = 3)
    (hx : 0 ≤ f.xUpperLeft) (hy : 0 ≤ f.yUpperLeft)
    (hw : f.xUpperLeft + f.width ≤ f.image.width)
    (hh : f.yUpperLeft + f.height ≤ f.image.height) :
    sameImage f.OnButtonApplyClick.OnButtonUndoClick.image f.image
      ∧ sameImage f.OnButtonApplyClick.OnButtonUndoClick.OnButtonRedoClick.image
          f.OnButtonApplyClick.image := by
  -- the patch built by the handler and the facts the composition needs
  have key : ∀ (p0 : ImageProcess) (pt : Bitmap), 0 ≤ p0.x → 0 ≤ p0.y →
      (∀ c r : Nat, (c : Int) < p0.w → (r : Int) < p0.h →
        p0.old_patch.pix c r = f.image.pix (p0.x.toNat + c) (p0.y.toNat + r)) →
      ∀ (p1 : ImageProcess), p1 = { p0 with patch := pt } →
      sameImage (p1.setPatchImage (p1.setPatchImage f.image 1) 0) f.image
        ∧ sameImage (p1.setPatchImage (p1.setPatchImage (p1.setPatchImage f.image 1) 0) 1)
            (p1.setPatchImage f.image 1) := by
    intro p0 pt h0x h0y hold p1 hp1
    subst hp1
    exact undo_redo_core _ f.image h0x h0y hold
  have filt : ∀ p0 : ImageProcess, ∃ pt : Bitmap,
      (if f.filterList < 3 then callOp f.filterList p0 f.image
        else p0.constrast f.image f.alpha f.beta)
        = ({ p0 with patch := pt }, ({ p0 with patch := pt } : ImageProcess).setPatchImage f.image 1) := by
    intro p0
    rcases hop with h | h | h | h
    · exact ⟨p0.sobelPatch, by rw [h]; rfl⟩
    · exact ⟨p0.negativePatch, by rw [h]; rfl⟩
    · exact ⟨p0.gaussPatch, by rw [h]; rfl⟩
    · exact ⟨p0.constrastPatch f.alpha f.beta, by rw [h]; rfl⟩
  have main : ∀ p0 : ImageProcess, 0 ≤ p0.x → 0 ≤ p0.y →
      (∀ c r : Nat, (c : Int) < p0.w → (r : Int) < p0.h →
        p0.old_patch.pix c r = f.image.pix (p0.x.toNat + c) (p0.y.toNat + r)) →
      f.OnButtonApplyClick = { f with
        image := (if f.filterList < 3 then callOp f.filterList p0 f.image
          else p0.constrast f.image f.alpha f.beta).2,
        undoStack := f.undoStack.push (if f.filterList < 3 then callOp f.filterList p0 f.image
          else p0.constrast f.image f.alpha f.beta).1 } →
      sameImage f.OnButtonApplyClick.OnButtonUndoClick.image f.image
        ∧ sameImage f.OnButtonApplyClick.OnButtonUndoClick.OnButtonRedoClick.image
            f.OnButtonApplyClick.image := by
    intro p0 h0x h0y hold happly
    obtain ⟨pt, hpt⟩ := filt p0
    rw [happly, hpt]
    simp only [MyFrame.OnButtonUndoClick, MyFrame.OnButtonRedoClick, pop_push_fst _ _ hu,
      pop_push_fst _ _ hr]
    exact key p0 pt h0x h0y hold _ rfl
  by_cases hz : f.width = 0 ∧ f.height = 0
  · apply main (ImageProcess.ImageProcess6 f.image f.filterList 0 0 f.XYLimit0 f.XYLimit1)
      (le_refl _) (le_refl _)
    · intro c r hc hr
      have hc1 : (c : Int) < f.XYLimit0 := hc
      have hr1 : (r : Int) < f.XYLimit1 := hr
      exact (ImageProcess6_buffers f.image f.filterList 0 0 f.XYLimit0 f.XYLimit1 (le_refl _)
        (le_refl _) (by omega) (by omega) c r hc1 hr1).1
    · simp only [MyFrame.OnButtonApplyClick, if_pos hz]
  · apply main (ImageProcess.ImageProcess6 f.image f.filterList f.xUpperLeft f.yUpperLeft
      f.width f.height) hx hy
    · intro c r hc hr
      exact (ImageProcess6_buffers f.image f.filterList f.xUpperLeft f.yUpperLeft f.width
        f.height hx hy hw hh c r hc hr).1
    · simp only [MyFrame.OnButtonApplyClick, if_neg hz]

/-- C6 (as the code has it). The constructor has no failure: for every image and every
`(x, y, w, h)` it yields a patch marked valid (`getPatchState` is false).  When the rectangle lies
inside the image (`0 <= x`, `0 <= y`, `x + w <= W`, `y + h <= H`) the pre-operation buffer and
the initial post-operation buffer both equal the source sub-region pixel for pixel. -/
theorem constructor_marks_valid_and_copies_region (image : Bitmap) (operation x y w h : Int) :
    (ImageProcess.ImageProcess6 image operation x y w h).getPatchState = false
      ∧ (0 ≤ x → 0 ≤ y → x + w ≤ image.width → y + h ≤ image.height →
          ∀ c r : Nat, (c : Int) < w → (r : Int) < h →
            (ImageProcess.ImageProcess6 image operation x y w h).old_patch.pix c r
                = image.pix (x.toNat + c) (y.toNat + r)
              ∧ (ImageProcess.ImageProcess6 image operation x y w h).patch.pix c r
                = image.pix (x.toNat + c) (y.toNat + r)) := by
  refine ⟨rfl, ?_⟩
  intro hx hy hw hh c r hc hr
  exact ImageProcess6_buffers image operation x y w h hx hy hw hh c r hc hr

/-- C6, counterexample: on the 10 x 10 image the rectangle (8, 8, 5, 5) reaches past the right
and bottom edges, and the rectangle (-1, 0, 2, 2) starts left of the image; the constructor
yields a patch marked valid for both. -/
theorem constructor_accepts_rectangle_outside_image :
    (8 : Int) + 5 > (blank10.width : Int) ∧ (8 : Int) + 5 > (blank10.height : Int)
      ∧ (ImageProcess.ImageProcess6 blank10 1 8 8 5 5).getPatchState = false
      ∧ (-1 : Int) < 0
      ∧ (ImageProcess.ImageProcess6 blank10 1 (-1) 0 2 2).getPatchState = false := by
  refine ⟨by decide, by decide, rfl, by decide, rfl⟩

theorem frame10_valid : frame10.undoStack.Valid ∧ frame10.redoStack.Valid :=
  ⟨operationStack0_valid, operationStack0_valid⟩

/-- C1, witness: the 10 x 10 all-zero image with negation on (2, 2, 3, 3).  Apply makes exactly
the 9 pixels of the rectangle 255, Undo returns every pixel to 0, Redo returns the 9 pixels to
255. -/
theorem undo_restores_and_redo_reapplies_witness :
    (sameImage frame10.OnButtonApplyClick.OnButtonUndoClick.image frame10.image
      ∧ sameImage frame10.OnButtonApplyClick.OnButtonUndoClick.OnButtonRedoClick.image
          frame10.OnButtonApplyClick.image)
      ∧ (∀ c < 10, ∀ r < 10, frame10.OnButtonApplyClick.image.pix c r
          = if 2 ≤ c ∧ c < 5 ∧ 2 ≤ r ∧ r < 5 then 255 else 0)
      ∧ (∀ c < 10, ∀ r < 10, frame10.OnButtonApplyClick.OnButtonUndoClick.image.pix c r = 0)
      ∧ (∀ c < 10, ∀ r < 10,
          frame10.OnButtonApplyClick.OnButtonUndoClick.OnButtonRedoClick.image.pix c r
            = if 2 ≤ c ∧ c < 5 ∧ 2 ≤ r ∧ r < 5 then 255 else 0) :=
  ⟨undo_restores_and_redo_reapplies frame10 frame10_valid.1 frame10_valid.2
      ⟨by decide, by decide⟩ (by decide) (by decide) (by decide) (by decide) (by decide),
    by decide, by decide, by decide⟩

/-! ## The filters -/

theorem toChannel_lt (v : Int) : toChannel v < 256 := by
  unfold toChannel
  omega

theorem toChannel_of_lt (v : Nat) (h : v < 256) : toChannel (v : Int) = v := by
  unfold toChannel
  omega

theorem gaussPatch_pix (p : ImageProcess) (c r : Nat) :
    p.gaussPatch.pix c r
      = if c < p.w.toNat ∧ r < p.h.toNat
          then toChannel (Int.tdiv (gaussWindow p.old_patch p.w p.h c r) div_c)
          else p.patch.pix c r :=
  forEachPixel_pix0
    (fun x y _ => toChannel (Int.tdiv (gaussWindow p.old_patch p.w p.h x y) div_c))
    p.w p.h p.patch c r

theorem intRange5 (a : Int) : intRange (a - 2) (a + 2) = [a - 2, a - 1, a, a + 1, a + 2] := by
  have h5 : (a + 2 + 1 - (a - 2)).toNat = 5 := by omega
  have e1 : a - 2 + 1 = a - 1 := by omega
  have e2 : a - 2 + 2 = a := by omega
  have e3 : a - 2 + 3 = a + 1 := by omega
  have e4 : a - 2 + 4 = a + 2 := by omega
  simp [intRange, h5, List.range_succ, e1, e2, e3, e4]

theorem gaussRow_uniform (original : Bitmap) (w h x y i : Int) (k : Nat)
    (hi : 0 ≤ i ∧ i < h) (js : List Int) (aux : Int)
    (hjs : ∀ j ∈ js, 0 ≤ j ∧ j < w ∧ original.pix j.toNat i.toNat = k) :
    gaussRow original w h x y i js aux
      = aux + (k : Int) *
          (js.map (fun j => matAt kernel (center_i - (y - i)) (center_j - (x - j)))).sum := by
  induction js generalizing aux with
  | nil => simp [gaussRow]
  | cons j js ih =>
    obtain ⟨hj1, hj2, hj3⟩ := hjs j (List.mem_cons_self _ _)
    have hcond : ¬ (i < 0 ∨ j < 0 ∨ i ≥ h ∨ j ≥ w) := by omega
    rw [gaussRow, if_neg hcond, ih _ (fun j1 hj => hjs j1 (List.mem_cons_of_mem _ hj)), hj3]
    simp only [List.map_cons, List.sum_cons]
    ring

theorem gaussWindow_uniform_interior (original : Bitmap) (w h : Int) (k : Nat) (x y : Int)
    (hu : ∀ c r : Nat, (c : Int) < w → (r : Int) < h → original.pix c r = k)
    (hx : 2 ≤ x ∧ x < w - 2) (hy : 2 ≤ y ∧ y < h - 2) :
    gaussWindow original w h x y = 273 * (k : Int) := by
  have hc : center_i = 2 ∧ center_j = 2 := ⟨rfl, rfl⟩
  have hrow : ∀ (i aux : Int), y - 2 ≤ i → i ≤ y + 2 →
      gaussRow original w h x y i [x - 2, x - 1, x, x + 1, x + 2] aux
        = aux + (k : Int) *
          ([x - 2, x - 1, x, x + 1, x + 2].map
            (fun j => matAt kernel (center_i - (y - i)) (center_j - (x - j)))).sum := by
    intro i aux h1 h2
    apply gaussRow_uniform original w h x y i k (by omega)
    intro j hj
    have hjr : x - 2 ≤ j ∧ j ≤ x + 2 := by
      simp only [List.mem_cons, List.mem_singleton, List.not_mem_nil, or_false] at hj
      omega
    refine ⟨by omega, by omega, ?_⟩
    have e := hu j.toNat i.toNat (by omega) (by omega)
    exact e
  unfold gaussWindow
  rw [hc.1, hc.2, intRange5, intRange5]
  simp only [List.foldl_cons, List.foldl_nil]
  rw [hrow _ _ (by omega) (by omega), hrow _ _ (by omega) (by omega),
    hrow _ _ (by omega) (by omega), hrow _ _ (by omega) (by omega),
    hrow _ _ (by omega) (by omega)]
  have c0 : x - (x - 2) = 2 := by omega
  have c1 : x - (x - 1) = 1 := by omega
  have c2 : x - x = 0 := by omega
  have c3 : x - (x + 1) = -1 := by omega
  have c4 : x - (x + 2) = -2 := by omega
  have r0 : y - (y - 2) = 2 := by omega
  have r1 : y - (y - 1) = 1 := by omega
  have r2 : y - y = 0 := by omega
  have r3 : y - (y + 1) = -1 := by omega
  have r4 : y - (y + 2) = -2 := by omega
  simp only [List.map_cons, List.map_nil, List.sum_cons, List.sum_nil, hc.1, hc.2,
    c0, c1, c2, c3, c4, r0, r1, r2, r3, r4]
  have t2 : Int.toNat 2 = 2 := rfl
  have t3 : Int.toNat 3 = 3 := rfl
  have t4 : Int.toNat 4 = 4 := rfl
  norm_num [matAt, kernel, t2, t3, t4]
  ring

/-- C8. In a `w` x `h` patch whose pixels all equal `k` (0 <= k <= 255), `gauss_filter` writes
exactly `k` at every interior pixel, i.e. every `(x, y)` with `2 <= x < w - 2` and
`2 <= y < h - 2`: the division coefficient is the kernel sum 273 and the accumulator there is
`273 * k`. -/
theorem gauss_uniform_patch_interior (p : ImageProcess) (image : Bitmap) (k : Nat)
    (hk : k ≤ 255)
    (hu : ∀ c r : Nat, (c : Int) < p.w → (r : Int) < p.h → p.old_patch.pix c r = k)
    (x y : Nat) (hx : 2 ≤ x ∧ (x : Int) < p.w - 2) (hy : 2 ≤ y ∧ (y : Int) < p.h - 2) :
    (p.gauss_filter image).1.patch.pix x y = k
      ∧ div_c = 273
      ∧ gaussWindow p.old_patch p.w p.h x y = 273 * (k : Int) := by
  have hwin := gaussWindow_uniform_interior p.old_patch p.w p.h k x y hu
    ⟨by omega, hx.2⟩ ⟨by omega, hy.2⟩
  have hd : div_c = 273 := by decide
  refine ⟨?_, hd, hwin⟩
  have hin : x < p.w.toNat ∧ y < p.h.toNat := by omega
  show p.gaussPatch.pix x y = k
  rw [gaussPatch_pix, if_pos hin, hwin, hd]
  have e : Int.tdiv (273 * (k : Int)) 273 = k := by
    rw [Int.tdiv_eq_ediv (by omega) (by decide)]
    omega
  rw [e]
  exact toChannel_of_lt k (by omega)

theorem gaussRow_outside (original : Bitmap) (w h x y i : Int) (js : List Int) (aux : Int)
    (hi : i < 0 ∨ i ≥ h) : gaussRow original w h x y i js aux = aux := by
  cases js with
  | nil => rfl
  | cons j js =>
    have hcond : i < 0 ∨ j < 0 ∨ i ≥ h ∨ j ≥ w := by omega
    rw [gaussRow, if_pos hcond]

theorem gaussRow_ascending (original : Bitmap) (w h x y i : Int) (hi : 0 ≤ i ∧ i < h)
    (js : List Int) (aux : Int) (hpos : ∀ j ∈ js, 0 ≤ j) (hasc : js.Pairwise (fun a b => a ≤ b)) :
    gaussRow original w h x y i js aux
      = aux + (js.map (fun j => if j < w then
          (original.pix j.toNat i.toNat : Int)
            * matAt kernel (center_i - (y - i)) (center_j - (x - j)) else 0)).sum := by
  induction js generalizing aux with
  | nil => simp [gaussRow]
  | cons j js ih =>
    have hj0 := hpos j (List.mem_cons_self _ _)
    rw [List.pairwise_cons] at hasc
    by_cases hjw : j < w
    · have hcond : ¬ (i < 0 ∨ j < 0 ∨ i ≥ h ∨ j ≥ w) := by omega
      rw [gaussRow, if_neg hcond, ih _ (fun a ha => hpos a (List.mem_cons_of_mem _ ha)) hasc.2]
      simp only [List.map_cons, List.sum_cons, if_pos hjw]
      ring
    · have hcond : i < 0 ∨ j < 0 ∨ i ≥ h ∨ j ≥ w := by omega
      rw [gaussRow, if_pos hcond]
      have hz : (List.map (fun j => if j < w then
          (original.pix j.toNat i.toNat : Int)
            * matAt kernel (center_i - (y - i)) (center_j - (x - j)) else 0) (j :: js)).sum
          = 0 := by
        apply List.sum_eq_zero
        intro t ht
        rw [List.mem_map] at ht
        obtain ⟨a, ha, rfl⟩ := ht
        have hge : j ≤ a := by
          rcases List.mem_cons.mp ha with h1 | h1
          · omega
          · exact hasc.1 a h1
        have : ¬ a < w := by omega
        rw [if_neg this]
      rw [hz]
      ring

theorem foldl_add_eq_sum (R : Int → Int) (l : List Int) (aux : Int) :
    l.foldl (fun a i => a + R i) aux = aux + (l.map R).sum := by
  induction l generalizing aux with
  | nil => simp
  | cons i l ih =>
    simp only [List.foldl_cons, List.map_cons, List.sum_cons, ih]
    ring

theorem window_offsets (a : Int) :
    [a - 2, a - 1, a, a + 1, a + 2] = [-2, -1, 0, 1, 2].map (fun d => a + d) := by
  have e0 : a + -2 = a - 2 := by omega
  have e1 : a + -1 = a - 1 := by omega
  have e2 : a + 0 = a := by omega
  simp only [List.map_cons, List.map_nil, e0, e1, e2]

/-- From column 2 on, the accumulator of `gauss_filter` is the sum of the smoothing rule: there
the bounds test only ever leaves a row at a sample beyond the right edge or in a row outside
the patch, where every remaining sample of the row is outside too. -/
theorem gaussWindow_eq_rule (original : Bitmap) (w h x y : Int) (hx : 2 ≤ x) :
    gaussWindow original w h x y = specGaussSum original w h x y := by
  have hc : center_i = 2 ∧ center_j = 2 := ⟨rfl, rfl⟩
  have hasc : [x - 2, x - 1, x, x + 1, x + 2].Pairwise (fun a b => a ≤ b) := by
    simp only [List.pairwise_cons, List.mem_cons, List.mem_singleton, List.not_mem_nil,
      List.Pairwise.nil, and_true, or_false, forall_eq_or_imp, forall_eq, false_imp_iff,
      implies_true]
    omega
  have hpos : ∀ j ∈ [x - 2, x - 1, x, x + 1, x + 2], 0 ≤ j := by
    intro j hj
    simp only [List.mem_cons, List.mem_singleton, List.not_mem_nil, or_false] at hj
    omega
  have hrow : ∀ (i aux : Int),
      gaussRow original w h x y i [x - 2, x - 1, x, x + 1, x + 2] aux
        = aux + (if 0 ≤ i ∧ i < h then
            ([x - 2, x - 1, x, x + 1, x + 2].map (fun j => if j < w then
              (original.pix j.toNat i.toNat : Int)
                * matAt kernel (center_i - (y - i)) (center_j - (x - j)) else 0)).sum
          else 0) := by
    intro i aux
    by_cases hi : 0 ≤ i ∧ i < h
    · rw [if_pos hi]
      exact gaussRow_ascending original w h x y i hi _ aux hpos hasc
    · rw [if_neg hi, gaussRow_outside original w h x y i _ aux (by omega)]
      ring
  have hr : intRange (-2) 2 = [-2, -1, 0, 1, 2] := by decide
  unfold gaussWindow specGaussSum
  rw [hc.1, hc.2, intRange5, intRange5, hr]
  have hfun : (fun aux i => gaussRow original w h x y i [x - 2, x - 1, x, x + 1, x + 2] aux)
      = (fun aux i => aux + (fun i => if 0 ≤ i ∧ i < h then
            ([x - 2, x - 1, x, x + 1, x + 2].map (fun j => if j < w then
              (original.pix j.toNat i.toNat : Int)
                * matAt kernel (center_i - (y - i)) (center_j - (x - j)) else 0)).sum
          else 0) i) := by
    funext aux i
    exact hrow i aux
  rw [hfun, foldl_add_eq_sum, window_offsets y, window_offsets x, List.map_map, zero_add]
  apply congrArg
  apply List.map_congr_left
  intro di hdi
  have hdi2 : -2 ≤ di ∧ di ≤ 2 := by
    simp only [List.mem_cons, List.mem_singleton, List.not_mem_nil, or_false] at hdi
    omega
  simp only [Function.comp_apply, List.map_map]
  by_cases hi : 0 ≤ y + di ∧ y + di < h
  · rw [if_pos hi]
    apply congrArg
    apply List.map_congr_left
    intro dj hdj
    have hdj2 : -2 ≤ dj ∧ dj ≤ 2 := by
      simp only [List.mem_cons, List.mem_singleton, List.not_mem_nil, or_false] at hdj
      omega
    simp only [Function.comp_apply, hc.1, hc.2]
    have e1 : 2 - (y - (y + di)) = 2 + di := by omega
    have e2 : 2 - (x - (x + dj)) = 2 + dj := by omega
    rw [e1, e2]
    by_cases hj : x + dj < w
    · have hall : 0 ≤ x + dj ∧ x + dj < w ∧ 0 ≤ y + di ∧ y + di < h := by omega
      rw [if_pos hj, if_pos hall]
    · have hall : ¬ (0 ≤ x + dj ∧ x + dj < w ∧ 0 ≤ y + di ∧ y + di < h) := by omega
      rw [if_neg hj, if_neg hall]
  · rw [if_neg hi]
    symm
    apply List.sum_eq_zero
    intro t ht
    rw [List.mem_map] at ht
    obtain ⟨dj, _, rfl⟩ := ht
    have hall : ¬ (0 ≤ x + dj ∧ x + dj < w ∧ 0 ≤ y + di ∧ y + di < h) := by omega
    rw [if_neg hall]

theorem specGaussSum_bounds (original : Bitmap) (w h x y : Int)
    (h8 : ∀ c r : Nat, (c : Int) < w → (r : Int) < h → original.pix c r ≤ 255) :
    0 ≤ specGaussSum original w h x y ∧ specGaussSum original w h x y ≤ 255 * 273 := by
  have hr : intRange (-2) 2 = [-2, -1, 0, 1, 2] := by decide
  have hK : ∀ di ∈ [(-2 : Int), -1, 0, 1, 2], ∀ dj ∈ [(-2 : Int), -1, 0, 1, 2],
      0 ≤ matAt kernel (2 + di) (2 + dj) := by decide
  have hterm : ∀ di ∈ [(-2 : Int), -1, 0, 1, 2], ∀ dj ∈ [(-2 : Int), -1, 0, 1, 2],
      0 ≤ (if 0 ≤ x + dj ∧ x + dj < w ∧ 0 ≤ y + di ∧ y + di < h then
          (original.pix (x + dj).toNat (y + di).toNat : Int) * matAt kernel (2 + di) (2 + dj)
        else 0)
      ∧ (if 0 ≤ x + dj ∧ x + dj < w ∧ 0 ≤ y + di ∧ y + di < h then
          (original.pix (x + dj).toNat (y + di).toNat : Int) * matAt kernel (2 + di) (2 + dj)
        else 0) ≤ 255 * matAt kernel (2 + di) (2 + dj) := by
    intro di hdi dj hdj
    have hk := hK di hdi dj hdj
    by_cases hc : 0 ≤ x + dj ∧ x + dj < w ∧ 0 ≤ y + di ∧ y + di < h
    · rw [if_pos hc]
      have hp := h8 (x + dj).toNat (y + di).toNat (by omega) (by omega)
      have hp2 : (original.pix (x + dj).toNat (y + di).toNat : Int) ≤ 255 := by exact_mod_cast hp
      have hp0 : (0 : Int) ≤ (original.pix (x + dj).toNat (y + di).toNat : Int) :=
        Int.natCast_nonneg _
      exact ⟨mul_nonneg hp0 hk, mul_le_mul_of_nonneg_right hp2 hk⟩
    · rw [if_neg hc]
      exact ⟨le_refl _, mul_nonneg (by decide) hk⟩
  have htot : (([(-2 : Int), -1, 0, 1, 2].map (fun di =>
      ([(-2 : Int), -1, 0, 1, 2].map (fun dj => 255 * matAt kernel (2 + di) (2 + dj))).sum)).sum)
      = 255 * 273 := by decide
  unfold specGaussSum
  rw [hr]
  constructor
  · apply List.sum_nonneg
    intro t ht
    rw [List.mem_map] at ht
    obtain ⟨di, hdi, rfl⟩ := ht
    apply List.sum_nonneg
    intro t ht
    rw [List.mem_map] at ht
    obtain ⟨dj, hdj, rfl⟩ := ht
    exact (hterm di hdi dj hdj).1
  · rw [← htot]
    apply List.sum_le_sum
    intro di hdi
    apply List.sum_le_sum
    intro dj hdj
    exact (hterm di hdi dj hdj).2

/-- From column 2 on, the pixel written by `gauss_filter` is the pixel of the smoothing rule, for
a patch with intensities in 0..255. -/
theorem gauss_matches_rule_from_column_two (p : ImageProcess) (image : Bitmap)
    (h8 : ∀ c r : Nat, (c : Int) < p.w → (r : Int) < p.h → p.old_patch.pix c r ≤ 255)
    (x y : Nat) (hx : 2 ≤ x) (hxw : (x : Int) < p.w) (hy : (y : Int) < p.h) :
    ((p.gauss_filter image).1.patch.pix x y : Int) = specGaussPixel p.old_patch p.w p.h x y := by
  have hin : x < p.w.toNat ∧ y < p.h.toNat := by omega
  have hd : div_c = 273 := by decide
  obtain ⟨hb0, hb1⟩ := specGaussSum_bounds p.old_patch p.w p.h x y h8
  show (p.gaussPatch.pix x y : Int) = _
  rw [gaussPatch_pix, if_pos hin, gaussWindow_eq_rule _ _ _ _ _ (by omega), hd,
    Int.tdiv_eq_ediv hb0 (by decide)]
  unfold specGaussPixel toChannel
  omega

/-- C7, the code at the failing input (the 5 x 5 patch with every pixel 255, output pixel
(0, 0)): the rule of the claim gives floor(255 * 132 / 273) = 123, since nine samples of the
window lie inside the patch; `gauss_filter` writes 0, since every window row starts left of the
patch and is left at its first sample. -/
theorem gauss_corner_pixel_differs_from_rule :
    ((ImageProcess.ImageProcess6 white5 2 0 0 5 5).gauss_filter white5).1.patch.pix 0 0 = 0
      ∧ gaussWindow white5 5 5 0 0 = 0
      ∧ specGaussSum white5 5 5 0 0 = 255 * 132
      ∧ specGaussPixel white5 5 5 0 0 = 123 := by
  refine ⟨by decide, by decide, by decide, by decide⟩

theorem sobelPatch_pix (p : ImageProcess) (c r : Nat) :
    p.sobelPatch.pix c r
      = if c < p.w.toNat ∧ r < p.h.toNat
          then toChannel (sobelRes (sobelWindow p.old_patch p.w p.h c r).1
            (sobelWindow p.old_patch p.w p.h c r).2)
          else p.patch.pix c r :=
  forEachPixel_pix0
    (fun x y _ => toChannel (sobelRes (sobelWindow p.old_patch p.w p.h x y).1
      (sobelWindow p.old_patch p.w p.h x y).2))
    p.w p.h p.patch c r

theorem sobelRes_eq_floor (gx gy : Int) :
    (toChannel (sobelRes gx gy) : Int) = ⌊Real.sqrt ((gx ^ 2 + gy ^ 2 : Int) : ℝ)⌋ % 256 := by
  have hn : 0 ≤ gx * gx + gy * gy := add_nonneg (mul_self_nonneg gx) (mul_self_nonneg gy)
  have hcast : ((gx ^ 2 + gy ^ 2 : Int) : ℝ) = (((gx * gx + gy * gy).toNat : ℕ) : ℝ) := by
    have e : (((gx * gx + gy * gy).toNat : ℕ) : Int) = gx ^ 2 + gy ^ 2 := by
      rw [Int.toNat_of_nonneg hn]; ring
    rw [← e]
    exact Int.cast_natCast _
  rw [hcast, Real.floor_real_sqrt_eq_nat_sqrt]
  unfold sobelRes
  rw [toChannel_of_lt _ (Nat.mod_lt _ (by decide))]
  simp

/-- C9 (as the code has it). For every patch and every pixel `(x, y)` of it, with `gx` and `gy`
the two sums `sobel_filter` accumulates for that pixel, the value written is
floor(sqrt(gx^2 + gy^2)) modulo 256: the square root is truncated toward zero, not rounded to
the nearest integer, and values of 256 or more wrap. -/
theorem sobel_writes_truncated_root_mod_256 (p : ImageProcess) (image : Bitmap) (x y : Nat)
    (hx : (x : Int) < p.w) (hy : (y : Int) < p.h) :
    ((p.sobel_filter image).1.patch.pix x y : Int)
      = ⌊Real.sqrt (((sobelWindow p.old_patch p.w p.h x y).1 ^ 2
          + (sobelWindow p.old_patch p.w p.h x y).2 ^ 2 : Int) : ℝ)⌋ % 256 := by
  have hin : x < p.w.toNat ∧ y < p.h.toNat := by omega
  show (p.sobelPatch.pix x y : Int) = _
  rw [sobelPatch_pix, if_pos hin]
  exact sobelRes_eq_floor _ _

/-- C9, counterexample: in the 3 x 3 patch whose only non-zero pixel is a 2 at column 2, row 0,
the sums at pixel (1, 1) are gx = 2 and gy = 2; the nearest integer to sqrt(8) = 2.83 is 3, and
`sobel_filter` writes 2. -/
theorem sobel_truncates_where_rounding_goes_up :
    sobelWindow (ImageProcess.ImageProcess6 corner3 0 0 0 3 3).old_patch 3 3 1 1 = (2, 2)
      ∧ ((ImageProcess.ImageProcess6 corner3 0 0 0 3 3).sobel_filter corner3).1.patch.pix 1 1 = 2
      ∧ round (Real.sqrt (((2 : Int) ^ 2 + (2 : Int) ^ 2 : Int) : ℝ)) % 256 = 3 := by
  have hw : sobelWindow (ImageProcess.ImageProcess6 corner3 0 0 0 3 3).old_patch 3 3 1 1
      = (2, 2) := by decide
  refine ⟨hw, ?_, ?_⟩
  · show (ImageProcess.ImageProcess6 corner3 0 0 0 3 3).sobelPatch.pix 1 1 = 2
    have hin : 1 < (ImageProcess.ImageProcess6 corner3 0 0 0 3 3).w.toNat
        ∧ 1 < (ImageProcess.ImageProcess6 corner3 0 0 0 3 3).h.toNat := by decide
    rw [sobelPatch_pix, if_pos hin]
    have hw2 : sobelWindow (ImageProcess.ImageProcess6 corner3 0 0 0 3 3).old_patch
        (ImageProcess.ImageProcess6 corner3 0 0 0 3 3).w
        (ImageProcess.ImageProcess6 corner3 0 0 0 3 3).h ((1 : Nat) : Int) ((1 : Nat) : Int)
        = (2, 2) := hw
    rw [hw2]
    have hs : Nat.sqrt 8 = 2 := by
      symm
      rw [Nat.eq_sqrt]
      decide
    have h8 : ((2 : Int) * 2 + 2 * 2).toNat = 8 := by decide
    simp only [sobelRes, h8, hs]
    decide
  · have h3 : round (Real.sqrt (((2 : Int) ^ 2 + (2 : Int) ^ 2 : Int) : ℝ)) = 3 := by
      rw [round_eq, Int.floor_eq_iff]
      have e : (((2 : Int) ^ 2 + (2 : Int) ^ 2 : Int) : ℝ) = 8 := by norm_num
      rw [e]
      have h1 : (5 / 2 : ℝ) ≤ Real.sqrt 8 := by
        rw [Real.le_sqrt' (by norm_num)]
        norm_num
      have h2 : Real.sqrt 8 < 7 / 2 := by
        rw [Real.sqrt_lt' (by norm_num)]
        norm_num
      constructor
      · push_cast; linarith
      · push_cast; linarith
    rw [h3]
    decide

theorem constrastPixel_eq (alpha : ℚ) (beta : Int) (x y : Nat) (b : Bitmap) :
    constrastPixel alpha beta x y b
      = b.setPix x y (toChannel (truncToInt ((b.pix x y : ℚ) * alpha) + beta)) := by
  have hlt := toChannel_lt (truncToInt ((b.pix x y : ℚ) * alpha) + beta)
  have hnot : ¬ ((b.setPix x y (toChannel (truncToInt ((b.pix x y : ℚ) * alpha) + beta))).pix x y
      > 255) := by
    rw [setPix_pix]
    simp only [and_self, if_true]
    omega
  simp only [constrastPixel, if_neg hnot]

theorem constrastPatch_pix (p : ImageProcess) (alpha : ℚ) (beta : Int) (c r : Nat) :
    (p.constrastPatch alpha beta).pix c r
      = if c < p.w.toNat ∧ r < p.h.toNat
          then toChannel (truncToInt ((p.patch.pix c r : ℚ) * alpha) + beta)
          else p.patch.pix c r := by
  have hb : constrastPixel alpha beta
      = fun x y b => b.setPix x y
          ((fun _ _ v => toChannel (truncToInt ((v : ℚ) * alpha) + beta)) x y (b.pix x y)) := by
    funext x y b
    exact constrastPixel_eq alpha beta x y b
  unfold ImageProcess.constrastPatch
  rw [hb]
  exact forEachPixel_pix0 (fun _ _ v => toChannel (truncToInt ((v : ℚ) * alpha) + beta))
    p.w p.h p.patch c r

/-- C10, the code at the failing input (every pixel 200, alpha = 1.0, beta = 100): the value
`(int)(200 * 1.0) + 100 = 300` is above 255 and the claim asks for 255; `constrast` writes
300 mod 256 = 44 to the patch and to the composed image, because the test `Red() > 255` reads
the 8-bit channel after the store. -/
theorem constrast_wraps_above_255 :
    truncToInt (((200 : Nat) : ℚ) * 1) + 100 = 300
      ∧ ((ImageProcess.ImageProcess6 gray2 3 0 0 2 2).constrast gray2 1 100).1.patch.pix 0 0 = 44
      ∧ ((ImageProcess.ImageProcess6 gray2 3 0 0 2 2).constrast gray2 1 100).2.pix 0 0 = 44 := by
  have ht : truncToInt (((200 : Nat) : ℚ) * 1) + 100 = 300 := by simp [truncToInt]
  have hin : 0 < (ImageProcess.ImageProcess6 gray2 3 0 0 2 2).w.toNat
      ∧ 0 < (ImageProcess.ImageProcess6 gray2 3 0 0 2 2).h.toNat := by decide
  have hv : (ImageProcess.ImageProcess6 gray2 3 0 0 2 2).patch.pix 0 0 = 200 := by decide
  have hp : ((ImageProcess.ImageProcess6 gray2 3 0 0 2 2).constrastPatch 1 100).pix 0 0 = 44 := by
    rw [constrastPatch_pix, if_pos hin, hv, ht]
    decide
  refine ⟨ht, hp, ?_⟩
  show (({ (ImageProcess.ImageProcess6 gray2 3 0 0 2 2) with
    patch := (ImageProcess.ImageProcess6 gray2 3 0 0 2 2).constrastPatch 1 100 } :
      ImageProcess).setPatchImage gray2 1).pix 0 0 = 44
  rw [setPatchImage_pix _ _ _ (by decide) (by decide)]
  have hin2 : (0 : Int).toNat ≤ 0 ∧ 0 < (0 : Int).toNat + (2 : Int).toNat
      ∧ (0 : Int).toNat ≤ 0 ∧ 0 < (0 : Int).toNat + (2 : Int).toNat := by decide
  show (if (0 : Int).toNat ≤ 0 ∧ 0 < (0 : Int).toNat + (2 : Int).toNat
      ∧ (0 : Int).toNat ≤ 0 ∧ 0 < (0 : Int).toNat + (2 : Int).toNat then _ else _) = 44
  rw [if_pos hin2]
  exact hp

/-- C2, witness: the stack holding `sampleRecord 0 .. sampleRecord 9` receives `sampleRecord 10`. -/
theorem push_on_full_stack_drops_oldest_witness :
    fullStack.records
        = [sampleRecord 0, sampleRecord 1, sampleRecord 2, sampleRecord 3, sampleRecord 4,
           sampleRecord 5, sampleRecord 6, sampleRecord 7, sampleRecord 8, sampleRecord 9]
      ∧ (fullStack.push (sampleRecord 10)).records
        = [sampleRecord 1, sampleRecord 2, sampleRecord 3, sampleRecord 4, sampleRecord 5,
           sampleRecord 6, sampleRecord 7, sampleRecord 8, sampleRecord 9, sampleRecord 10]
      ∧ (fullStack.push (sampleRecord 10)).getElements = 10 :=
  ⟨rfl,
    (push_on_full_stack_drops_oldest fullStack (sampleRecord 0) (sampleRecord 1) (sampleRecord 2)
      (sampleRecord 3) (sampleRecord 4) (sampleRecord 5) (sampleRecord 6) (sampleRecord 7)
      (sampleRecord 8) (sampleRecord 9) (sampleRecord 10) rfl).1,
    (push_on_full_stack_drops_oldest fullStack (sampleRecord 0) (sampleRecord 1) (sampleRecord 2)
      (sampleRecord 3) (sampleRecord 4) (sampleRecord 5) (sampleRecord 6) (sampleRecord 7)
      (sampleRecord 8) (sampleRecord 9) (sampleRecord 10) rfl).2.1⟩

/-- C4, witness: push then pop on the freshly constructed stack. -/
theorem pop_after_push_returns_pushed_witness :
    operationStack.operationStack0.Valid
      ∧ operationStack.operationStack0.getElements < 10
      ∧ ((operationStack.operationStack0.push (sampleRecord 7)).pop.1 = sampleRecord 7)
      ∧ ((operationStack.operationStack0.push (sampleRecord 7)).pop.2.records
          = operationStack.operationStack0.records)
      ∧ ((operationStack.operationStack0.push (sampleRecord 7)).pop.2.getElements
          = operationStack.operationStack0.getElements) :=
  ⟨operationStack0_valid, by decide,
    (pop_after_push_returns_pushed _ (sampleRecord 7) operationStack0_valid).1,
    ((pop_after_push_returns_pushed _ (sampleRecord 7) operationStack0_valid).2 (by decide)).1,
    ((pop_after_push_returns_pushed _ (sampleRecord 7) operationStack0_valid).2 (by decide)).2⟩

/-- C5, witness: `pop` on the freshly constructed stack. -/
theorem pop_on_empty_returns_default_record_witness :
    operationStack.operationStack0.getElements = 0
      ∧ (operationStack.operationStack0.pop.1 = ImageProcess.ImageProcess0
        ∧ operationStack.operationStack0.pop.1.getPatchState = true
        ∧ operationStack.operationStack0.pop.2 = operationStack.operationStack0
        ∧ operationStack.operationStack0.pop.2.getElements = 0) :=
  ⟨rfl, pop_on_empty_returns_default_record operationStack.operationStack0 rfl⟩

/-- C6, witness: the rectangle (2, 3, 4, 5) of `ramp10`; the patch pixel (1, 2) is the image
pixel (3, 5), of intensity 53, in both buffers. -/
theorem constructor_marks_valid_and_copies_region_witness :
    (0 : Int) ≤ 2 ∧ (0 : Int) ≤ 3 ∧ (2 : Int) + 4 ≤ ramp10.width ∧ (3 : Int) + 5 ≤ ramp10.height
      ∧ ((1 : Nat) : Int) < 4 ∧ ((2 : Nat) : Int) < 5
      ∧ (ImageProcess.ImageProcess6 ramp10 1 2 3 4 5).getPatchState = false
      ∧ (ImageProcess.ImageProcess6 ramp10 1 2 3 4 5).old_patch.pix 1 2 = 53
      ∧ (ImageProcess.ImageProcess6 ramp10 1 2 3 4 5).patch.pix 1 2 = 53 :=
  ⟨by decide, by decide, by decide, by decide, by decide, by decide,
    (constructor_marks_valid_and_copies_region ramp10 1 2 3 4 5).1,
    ((constructor_marks_valid_and_copies_region ramp10 1 2 3 4 5).2 (by decide) (by decide)
      (by decide) (by decide) 1 2 (by decide) (by decide)).1,
    ((constructor_marks_valid_and_copies_region ramp10 1 2 3 4 5).2 (by decide) (by decide)
      (by decide) (by decide) 1 2 (by decide) (by decide)).2⟩

/-- C8, witness: the 5 x 5 patch with every pixel 255; its only interior pixel is (2, 2). -/
theorem gauss_uniform_patch_interior_witness :
    (255 ≤ 255)
      ∧ (2 ≤ 2 ∧ ((2 : Nat) : Int) < (ImageProcess.ImageProcess6 white5 2 0 0 5 5).w - 2)
      ∧ (2 ≤ 2 ∧ ((2 : Nat) : Int) < (ImageProcess.ImageProcess6 white5 2 0 0 5 5).h - 2)
      ∧ ((ImageProcess.ImageProcess6 white5 2 0 0 5 5).gauss_filter white5).1.patch.pix 2 2 = 255
      ∧ div_c = 273
      ∧ gaussWindow (ImageProcess.ImageProcess6 white5 2 0 0 5 5).old_patch 5 5 2 2
          = 273 * 255 :=
  ⟨le_refl _, ⟨le_refl _, by decide⟩, ⟨le_refl _, by decide⟩,
    gauss_uniform_patch_interior (ImageProcess.ImageProcess6 white5 2 0 0 5 5) white5 255
      (le_refl _) (fun _ _ _ _ => rfl) 2 2 ⟨le_refl _, by decide⟩ ⟨le_refl _, by decide⟩⟩

/-- C9, witness: pixel (1, 1) of the 3 x 3 patch cut from `corner3`. -/
theorem sobel_writes_truncated_root_mod_256_witness :
    ((1 : Nat) : Int) < (ImageProcess.ImageProcess6 corner3 0 0 0 3 3).w
      ∧ ((1 : Nat) : Int) < (ImageProcess.ImageProcess6 corner3 0 0 0 3 3).h
      ∧ ((((ImageProcess.ImageProcess6 corner3 0 0 0 3 3).sobel_filter corner3).1.patch.pix 1 1
            : Nat) : Int)
          = ⌊Real.sqrt (((sobelWindow (ImageProcess.ImageProcess6 corner3 0 0 0 3 3).old_patch
              (ImageProcess.ImageProcess6 corner3 0 0 0 3 3).w
              (ImageProcess.ImageProcess6 corner3 0 0 0 3 3).h 1 1).1 ^ 2
            + (sobelWindow (ImageProcess.ImageProcess6 corner3 0 0 0 3 3).old_patch
              (ImageProcess.ImageProcess6 corner3 0 0 0 3 3).w
              (ImageProcess.ImageProcess6 corner3 0 0 0 3 3).h 1 1).2 ^ 2 : Int) : ℝ)⌋ % 256 :=
  ⟨by decide, by decide,
    sobel_writes_truncated_root_mod_256 (ImageProcess.ImageProcess6 corner3 0 0 0 3 3) corner3
      1 1 (by decide) (by decide)⟩

/-! ## Contrast identity, double negation, write-back, first columns -/

theorem truncToInt_natCast_mul_one (v : Nat) : truncToInt ((v : ℚ) * 1) + 0 = (v : Int) := by
  simp [truncToInt]

theorem negativePatch_pix (p : ImageProcess) (c r : Nat) :
    p.negativePatch.pix c r
      = if c < p.w.toNat ∧ r < p.h.toNat
          then toChannel ((255 ^^^ p.patch.pix c r : Nat) : Int)
          else p.patch.pix c r :=
  forEachPixel_pix0 (fun _ _ v => toChannel ((255 ^^^ v : Nat) : Int)) p.w p.h p.patch c r

set_option maxRecDepth 4000 in
theorem xor_255 (v : Nat) (hv : v ≤ 255) : 255 ^^^ v = 255 - v := by
  have h : ∀ u < 256, 255 ^^^ u = 255 - u := by decide
  exact h v (by omega)

theorem toChannel_xor_255 (v : Nat) (hv : v ≤ 255) :
    toChannel ((255 ^^^ v : Nat) : Int) = 255 - v := by
  rw [xor_255 v hv]
  exact toChannel_of_lt _ (by omega)

theorem constrast_identity_pix (p : ImageProcess) (c r : Nat)
    (h8 : (c : Int) < p.w → (r : Int) < p.h → p.patch.pix c r ≤ 255) :
    (p.constrastPatch 1 0).pix c r = p.patch.pix c r := by
  rw [constrastPatch_pix]
  by_cases hin : c < p.w.toNat ∧ r < p.h.toNat
  · rw [if_pos hin, truncToInt_natCast_mul_one]
    exact toChannel_of_lt _ (by have := h8 (by omega) (by omega); omega)
  · rw [if_neg hin]

theorem setPatchImage_same (p : ImageProcess) (image : Bitmap) (mode : Int)
    (hx : 0 ≤ p.x) (hy : 0 ≤ p.y)
    (hsrc : ∀ c r : Nat, (c : Int) < p.w → (r : Int) < p.h →
      (if mode ≠ 0 then p.patch else p.old_patch).pix c r
        = image.pix (p.x.toNat + c) (p.y.toNat + r)) :
    sameImage (p.setPatchImage image mode) image := by
  have hs := setPatchImage_size p image mode
  refine ⟨hs.1, hs.2, ?_⟩
  intro c r _ _
  rw [setPatchImage_pix p image mode hx hy]
  by_cases hin : p.x.toNat ≤ c ∧ c < p.x.toNat + p.w.toNat ∧ p.y.toNat ≤ r
      ∧ r < p.y.toNat + p.h.toNat
  · rw [if_pos hin, hsrc (c - p.x.toNat) (r - p.y.toNat) (by omega) (by omega)]
    have e1 : p.x.toNat + (c - p.x.toNat) = c := by omega
    have e2 : p.y.toNat + (r - p.y.toNat) = r := by omega
    rw [e1, e2]
  · rw [if_neg hin]

/-- C11. For a patch with intensities in 0..255, `constrast` with alpha = 1.0 and beta = 0
leaves every pixel of the post-operation buffer equal to its input value; when the patch was
cut from the image at its position, the image returned equals the input image pixel for pixel. -/
theorem constrast_with_unit_coefficients_is_identity (p : ImageProcess) (image : Bitmap)
    (h8 : ∀ c r : Nat, (c : Int) < p.w → (r : Int) < p.h → p.patch.pix c r ≤ 255)
    (hx : 0 ≤ p.x) (hy : 0 ≤ p.y)
    (hsrc : ∀ c r : Nat, (c : Int) < p.w → (r : Int) < p.h →
      p.patch.pix c r = image.pix (p.x.toNat + c) (p.y.toNat + r)) :
    (∀ c r : Nat, (p.constrast image 1 0).1.patch.pix c r = p.patch.pix c r)
      ∧ sameImage (p.constrast image 1 0).2 image := by
  have hpix : ∀ c r : Nat, (p.constrastPatch 1 0).pix c r = p.patch.pix c r :=
    fun c r => constrast_identity_pix p c r (h8 c r)
  refine ⟨hpix, ?_⟩
  show sameImage (({ p with patch := p.constrastPatch 1 0 } : ImageProcess).setPatchImage image 1)
    image
  refine setPatchImage_same ({ p with patch := p.constrastPatch 1 0 } : ImageProcess) image 1
    hx hy ?_
  intro c r hc hr
  have h1 : (1 : Int) ≠ 0 := by decide
  simp only [if_pos h1]
  show (p.constrastPatch 1 0).pix c r = _
  rw [hpix, hsrc c r hc hr]

theorem negative_image_pix (image : Bitmap) (op x y w h : Int)
    (hx : 0 ≤ x) (hy : 0 ≤ y) (hw : x + w ≤ image.width) (hh : y + h ≤ image.height)
    (c r : Nat) :
    ((ImageProcess.ImageProcess6 image op x y w h).negative image).2.pix c r
      = if x.toNat ≤ c ∧ c < x.toNat + w.toNat ∧ y.toNat ≤ r ∧ r < y.toNat + h.toNat
          then toChannel ((255 ^^^ image.pix c r : Nat) : Int)
          else image.pix c r := by
  show (({ (ImageProcess.ImageProcess6 image op x y w h) with
    patch := (ImageProcess.ImageProcess6 image op x y w h).negativePatch } :
      ImageProcess).setPatchImage image 1).pix c r = _
  rw [setPatchImage_pix _ image 1 hx hy]
  show (if x.toNat ≤ c ∧ c < x.toNat + w.toNat ∧ y.toNat ≤ r ∧ r < y.toNat + h.toNat then
      (if (1 : Int) ≠ 0 then (ImageProcess.ImageProcess6 image op x y w h).negativePatch
        else (ImageProcess.ImageProcess6 image op x y w h).old_patch).pix
          (c - x.toNat) (r - y.toNat)
    else image.pix c r) = _
  by_cases hin : x.toNat ≤ c ∧ c < x.toNat + w.toNat ∧ y.toNat ≤ r ∧ r < y.toNat + h.toNat
  · have h1 : (1 : Int) ≠ 0 := by decide
    rw [if_pos hin, if_pos hin, if_pos h1, negativePatch_pix]
    have hin2 : c - x.toNat < (ImageProcess.ImageProcess6 image op x y w h).w.toNat
        ∧ r - y.toNat < (ImageProcess.ImageProcess6 image op x y w h).h.toNat := by
      show c - x.toNat < w.toNat ∧ r - y.toNat < h.toNat
      omega
    rw [if_pos hin2]
    have hb := (ImageProcess6_buffers image op x y w h hx hy hw hh (c - x.toNat) (r - y.toNat)
      (by omega) (by omega)).2
    have e1 : x.toNat + (c - x.toNat) = c := by omega
    have e2 : y.toNat + (r - y.toNat) = r := by omega
    rw [hb, e1, e2]
  · rw [if_neg hin, if_neg hin]

theorem negative_image_size (image : Bitmap) (op x y w h : Int) :
    ((ImageProcess.ImageProcess6 image op x y w h).negative image).2.width = image.width
      ∧ ((ImageProcess.ImageProcess6 image op x y w h).negative image).2.height
          = image.height :=
  setPatchImage_size _ image 1

/-- C12. For an image with intensities in 0..255 and a rectangle inside it, `negative` on the
rectangle followed by `negative` on the same rectangle of the result gives an image equal to the
original pixel for pixel; one application maps a pixel `v` of the rectangle to `255 XOR v`,
which is `255 - v`, and leaves the other pixels as they are. -/
theorem negative_twice_restores_image (image : Bitmap) (op x y w h : Int)
    (h8 : ∀ c r : Nat, c < image.width → r < image.height → image.pix c r ≤ 255)
    (hx : 0 ≤ x) (hy : 0 ≤ y) (hw : x + w ≤ image.width) (hh : y + h ≤ image.height) :
    sameImage
        ((ImageProcess.ImageProcess6
            ((ImageProcess.ImageProcess6 image op x y w h).negative image).2 op x y w h).negative
          ((ImageProcess.ImageProcess6 image op x y w h).negative image).2).2
        image
      ∧ (∀ c r : Nat, (c : Int) < w → (r : Int) < h →
          ((ImageProcess.ImageProcess6 image op x y w h).negative image).2.pix
              (x.toNat + c) (y.toNat + r)
            = 255 ^^^ image.pix (x.toNat + c) (y.toNat + r)
          ∧ 255 ^^^ image.pix (x.toNat + c) (y.toNat + r)
            = 255 - image.pix (x.toNat + c) (y.toNat + r)) := by
  have hs1 := negative_image_size image op x y w h
  have hs2 := negative_image_size
    ((ImageProcess.ImageProcess6 image op x y w h).negative image).2 op x y w h
  have hw1 : x + w ≤ (((ImageProcess.ImageProcess6 image op x y w h).negative image).2.width
      : Int) := by rw [hs1.1]; exact hw
  have hh1 : y + h ≤ (((ImageProcess.ImageProcess6 image op x y w h).negative image).2.height
      : Int) := by rw [hs1.2]; exact hh
  refine ⟨⟨hs2.1.trans hs1.1, hs2.2.trans hs1.2, ?_⟩, ?_⟩
  · intro c r hc hr
    rw [hs2.1, hs1.1] at hc
    rw [hs2.2, hs1.2] at hr
    rw [negative_image_pix _ op x y w h hx hy hw1 hh1, negative_image_pix image op x y w h hx hy
      hw hh]
    by_cases hin : x.toNat ≤ c ∧ c < x.toNat + w.toNat ∧ y.toNat ≤ r ∧ r < y.toNat + h.toNat
    · have hv := h8 c r hc hr
      rw [if_pos hin, if_pos hin, toChannel_xor_255 _ hv, toChannel_xor_255 _ (by omega)]
      omega
    · rw [if_neg hin, if_neg hin]
  · intro c r hc hr
    have hin : x.toNat ≤ x.toNat + c ∧ x.toNat + c < x.toNat + w.toNat
        ∧ y.toNat ≤ y.toNat + r ∧ y.toNat + r < y.toNat + h.toNat := by omega
    have hv := h8 (x.toNat + c) (y.toNat + r) (by omega) (by omega)
    rw [negative_image_pix image op x y w h hx hy hw hh, if_pos hin, toChannel_xor_255 _ hv]
    exact ⟨(xor_255 _ hv).symm, xor_255 _ hv⟩

/-- C13. For an image and a valid patch at offset `(x, y)` of size `w` x `h` lying inside the
image, `setPatchImage(image, mode)` returns an image of the same size; every pixel
`(x + c, y + r)` with `0 <= c < w`, `0 <= r < h` lies in the image and equals pixel `(c, r)` of
the post-operation buffer when `mode` is non-zero and of the pre-operation buffer when `mode` is
0; every pixel outside that rectangle equals the pixel of the input image. -/
theorem setPatchImage_writes_rectangle_only (p : ImageProcess) (image : Bitmap) (mode : Int)
    (hvalid : p.getPatchState = false)
    (hx : 0 ≤ p.x) (hy : 0 ≤ p.y)
    (hw : p.x + p.w ≤ image.width) (hh : p.y + p.h ≤ image.height) :
    (p.setPatchImage image mode).width = image.width
      ∧ (p.setPatchImage image mode).height = image.height
      ∧ (∀ c r : Nat, (c : Int) < p.w → (r : Int) < p.h →
          p.x.toNat + c < image.width ∧ p.y.toNat + r < image.height
          ∧ (mode ≠ 0 →
              (p.setPatchImage image mode).pix (p.x.toNat + c) (p.y.toNat + r) = p.patch.pix c r)
          ∧ (mode = 0 →
              (p.setPatchImage image mode).pix (p.x.toNat + c) (p.y.toNat + r)
                = p.old_patch.pix c r))
      ∧ (∀ c r : Nat,
          ¬ (p.x ≤ c ∧ (c : Int) < p.x + p.w ∧ p.y ≤ r ∧ (r : Int) < p.y + p.h) →
          (p.setPatchImage image mode).pix c r = image.pix c r) := by
  have hne : p.empty = false := hvalid
  have hs := setPatchImage_size p image mode
  refine ⟨hs.1, hs.2, ?_, ?_⟩
  · intro c r hc hr
    have hin : p.x.toNat ≤ p.x.toNat + c ∧ p.x.toNat + c < p.x.toNat + p.w.toNat
        ∧ p.y.toNat ≤ p.y.toNat + r ∧ p.y.toNat + r < p.y.toNat + p.h.toNat := by omega
    have e1 : p.x.toNat + c - p.x.toNat = c := by omega
    have e2 : p.y.toNat + r - p.y.toNat = r := by omega
    refine ⟨by omega, by omega, ?_, ?_⟩
    · intro hm
      rw [setPatchImage_pix p image mode hx hy, if_pos hin, if_pos hm, e1, e2]
    · intro hm
      have hm2 : ¬ mode ≠ 0 := by omega
      rw [setPatchImage_pix p image mode hx hy, if_pos hin, if_neg hm2, e1, e2]
  · intro c r hout
    have hout2 : ¬ (p.x.toNat ≤ c ∧ c < p.x.toNat + p.w.toNat ∧ p.y.toNat ≤ r
        ∧ r < p.y.toNat + p.h.toNat) := by omega
    rw [setPatchImage_pix p image mode hx hy, if_neg hout2]

theorem gaussRow_starts_left (original : Bitmap) (w h x y i j : Int) (js : List Int)
    (aux : Int) (hj : j < 0) : gaussRow original w h x y i (j :: js) aux = aux := by
  have hcond : i < 0 ∨ j < 0 ∨ i ≥ h ∨ j ≥ w := by omega
  rw [gaussRow, if_pos hcond]

theorem gaussWindow_first_columns (original : Bitmap) (w h x y : Int) (hx : x < 2) :
    gaussWindow original w h x y = 0 := by
  have hc : center_i = 2 ∧ center_j = 2 := ⟨rfl, rfl⟩
  unfold gaussWindow
  rw [hc.1, hc.2, intRange5, intRange5]
  simp only [List.foldl_cons, List.foldl_nil,
    gaussRow_starts_left original w h x y _ (x - 2) _ _ (by omega)]

theorem intRange3 (a : Int) : intRange (a - 1) (a + 1) = [a - 1, a, a + 1] := by
  have h3 : (a + 1 + 1 - (a - 1)).toNat = 3 := by omega
  have e1 : a - 1 + 1 = a := by omega
  have e2 : a - 1 + 2 = a + 1 := by omega
  simp [intRange, h3, List.range_succ, e1, e2]

theorem sobelRow_starts_left (original : Bitmap) (w h x y i j : Int) (js : List Int)
    (aux : Int × Int) (hj : j < 0) : sobelRow original w h x y i (j :: js) aux = aux := by
  have hcond : i < 0 ∨ j < 0 ∨ i ≥ h ∨ j ≥ w := by omega
  rw [sobelRow, if_pos hcond]

theorem sobelWindow_first_column (original : Bitmap) (w h x y : Int) (hx : x < 1) :
    sobelWindow original w h x y = (0, 0) := by
  unfold sobelWindow
  rw [intRange3, intRange3]
  simp only [List.foldl_cons, List.foldl_nil,
    sobelRow_starts_left original w h x y _ (x - 1) _ _ (by omega)]

/-- C17. Whatever the patch holds, `gauss_filter` writes 0 to every output pixel of patch
columns 0 and 1 and `sobel_filter` writes 0 to every output pixel of patch column 0: a window
row that starts left of the patch is left at its first sample, so the accumulators stay 0. -/
theorem first_columns_are_written_zero (p : ImageProcess) (image : Bitmap) (x y : Nat)
    (hxw : (x : Int) < p.w) (hy : (y : Int) < p.h) :
    (x < 2 → (p.gauss_filter image).1.patch.pix x y = 0
        ∧ gaussWindow p.old_patch p.w p.h x y = 0)
      ∧ (x = 0 → (p.sobel_filter image).1.patch.pix x y = 0
        ∧ sobelWindow p.old_patch p.w p.h x y = (0, 0)) := by
  have hin : x < p.w.toNat ∧ y < p.h.toNat := by omega
  constructor
  · intro hx
    have hwin := gaussWindow_first_columns p.old_patch p.w p.h x y (by omega)
    refine ⟨?_, hwin⟩
    show p.gaussPatch.pix x y = 0
    rw [gaussPatch_pix, if_pos hin, hwin]
    decide
  · intro hx
    have hwin := sobelWindow_first_column p.old_patch p.w p.h x y (by omega)
    refine ⟨?_, hwin⟩
    show p.sobelPatch.pix x y = 0
    rw [sobelPatch_pix, if_pos hin, hwin]
    have hs : Nat.sqrt 0 = 0 := Nat.sqrt_zero
    simp [sobelRes, toChannel, hs]

/-! ## Undo, redo and apply on the two stacks -/

theorem records_pop (s : operationStack) (h0 : 0 ≤ s.top) :
    s.records = s.pop.2.records ++ [s.pop.1]
      ∧ s.pop.2.getElements = s.getElements - 1
      ∧ s.pop.2.stack = s.stack := by
  have hne : ¬ s.top = -1 := by omega
  have hn : (s.top + 1).toNat = s.top.toNat + 1 := by omega
  have hm : (s.top - 1 + 1).toNat = s.top.toNat := by omega
  refine ⟨?_, ?_, ?_⟩
  · simp only [operationStack.pop, if_neg hne, operationStack.records,
      operationStack.getElements, hn, hm, List.range_succ, List.map_append, List.map_cons,
      List.map_nil]
  · simp only [operationStack.pop, if_neg hne, operationStack.getElements]
    omega
  · simp only [operationStack.pop, if_neg hne]

theorem records_push (s : operationStack) (r : ImageProcess) (hv : s.Valid) :
    (s.push r).records
        = (if s.getElements = STACKSIZE then s.records.tail else s.records) ++ [r]
      ∧ (s.push r).getElements
        = (if s.getElements = STACKSIZE then STACKSIZE else s.getElements + 1)
      ∧ (s.push r).records.getLast? = some r := by
  obtain ⟨h1, h2⟩ := hv
  by_cases hf : s.top = STACKSIZE - 1
  · have hfe : s.getElements = STACKSIZE := by
      simp only [operationStack.getElements, hf]
      omega
    obtain ⟨ha, hb⟩ := records_push_full s r hf
    rw [if_pos hfe, if_pos hfe]
    refine ⟨ha, hb, ?_⟩
    rw [ha]
    simp
  · have hfe : ¬ s.getElements = STACKSIZE := by
      simp only [operationStack.getElements]
      omega
    obtain ⟨ha, hb⟩ := records_push_room s r h1 (by omega)
    rw [if_neg hfe, if_neg hfe]
    refine ⟨ha, hb, ?_⟩
    rw [ha]
    simp

theorem pop_fst_eq_topRecord (s : operationStack) (hpos : 0 < s.getElements) :
    s.pop.1 = s.topRecord ∧ 0 ≤ s.top := by
  have h0 : 0 ≤ s.top := by
    simp only [operationStack.getElements] at hpos
    omega
  have hne : ¬ s.top = -1 := by omega
  refine ⟨?_, h0⟩
  simp only [operationStack.pop, if_neg hne, operationStack.topRecord]

theorem apply_record (f : MyFrame)
    (hop : f.filterList = 0 ∨ f.filterList = 1 ∨ f.filterList = 2 ∨ f.filterList = 3) :
    ∃ rec : ImageProcess, f.OnButtonApplyClick.undoStack = f.undoStack.push rec
      ∧ f.OnButtonApplyClick.image = rec.setPatchImage f.image 1
      ∧ rec.op_ID = f.filterList ∧ rec.getPatchState = false
      ∧ (f.width = 0 ∧ f.height = 0 →
          rec.x = 0 ∧ rec.y = 0 ∧ rec.w = f.XYLimit0 ∧ rec.h = f.XYLimit1)
      ∧ (¬ (f.width = 0 ∧ f.height = 0) →
          rec.x = f.xUpperLeft ∧ rec.y = f.yUpperLeft ∧ rec.w = f.width ∧ rec.h = f.height)
      ∧ rec.old_patch
          = (ImageProcess.ImageProcess6 f.image f.filterList rec.x rec.y rec.w rec.h).old_patch
      ∧ (f.filterList = 0 → rec.patch
          = (ImageProcess.ImageProcess6 f.image f.filterList rec.x rec.y rec.w rec.h).sobelPatch)
      ∧ (f.filterList = 1 → rec.patch
          = (ImageProcess.ImageProcess6 f.image f.filterList rec.x rec.y rec.w
              rec.h).negativePatch)
      ∧ (f.filterList = 2 → rec.patch
          = (ImageProcess.ImageProcess6 f.image f.filterList rec.x rec.y rec.w rec.h).gaussPatch) := by
  have filt : ∀ p0 : ImageProcess, ∃ pt : Bitmap,
      (if f.filterList < 3 then callOp f.filterList p0 f.image
        else p0.constrast f.image f.alpha f.beta)
        = ({ p0 with patch := pt },
            ({ p0 with patch := pt } : ImageProcess).setPatchImage f.image 1)
      ∧ (f.filterList = 0 → pt = p0.sobelPatch) ∧ (f.filterList = 1 → pt = p0.negativePatch)
      ∧ (f.filterList = 2 → pt = p0.gaussPatch) := by
    intro p0
    rcases hop with h | h | h | h
    · refine ⟨p0.sobelPatch, by rw [h]; rfl, fun _ => rfl, ?_, ?_⟩ <;>
        (intro h2; rw [h] at h2; exact absurd h2 (by decide))
    · refine ⟨p0.negativePatch, by rw [h]; rfl, ?_, fun _ => rfl, ?_⟩ <;>
        (intro h2; rw [h] at h2; exact absurd h2 (by decide))
    · refine ⟨p0.gaussPatch, by rw [h]; rfl, ?_, ?_, fun _ => rfl⟩ <;>
        (intro h2; rw [h] at h2; exact absurd h2 (by decide))
    · refine ⟨p0.constrastPatch f.alpha f.beta, by rw [h]; rfl, ?_, ?_, ?_⟩ <;>
        (intro h2; rw [h] at h2; exact absurd h2 (by decide))
  have main : ∀ (x y w h : Int),
      f.OnButtonApplyClick = { f with
        image := (if f.filterList < 3 then
            callOp f.filterList (ImageProcess.ImageProcess6 f.image f.filterList x y w h) f.image
          else (ImageProcess.ImageProcess6 f.image f.filterList x y w h).constrast f.image
            f.alpha f.beta).2,
        undoStack := f.undoStack.push (if f.filterList < 3 then
            callOp f.filterList (ImageProcess.ImageProcess6 f.image f.filterList x y w h) f.image
          else (ImageProcess.ImageProcess6 f.image f.filterList x y w h).constrast f.image
            f.alpha f.beta).1 } →
      ∃ rec : ImageProcess, f.OnButtonApplyClick.undoStack = f.undoStack.push rec
        ∧ f.OnButtonApplyClick.image = rec.setPatchImage f.image 1
        ∧ rec.op_ID = f.filterList ∧ rec.getPatchState = false
        ∧ (rec.x = x ∧ rec.y = y ∧ rec.w = w ∧ rec.h = h)
        ∧ rec.old_patch
            = (ImageProcess.ImageProcess6 f.image f.filterList rec.x rec.y rec.w rec.h).old_patch
        ∧ (f.filterList = 0 → rec.patch
            = (ImageProcess.ImageProcess6 f.image f.filterList rec.x rec.y rec.w
                rec.h).sobelPatch)
        ∧ (f.filterList = 1 → rec.patch
            = (ImageProcess.ImageProcess6 f.image f.filterList rec.x rec.y rec.w
                rec.h).negativePatch)
        ∧ (f.filterList = 2 → rec.patch
            = (ImageProcess.ImageProcess6 f.image f.filterList rec.x rec.y rec.w
                rec.h).gaussPatch) := by
    intro x y w h happly
    obtain ⟨pt, hpt, k0, k1, k2⟩ := filt (ImageProcess.ImageProcess6 f.image f.filterList x y w h)
    refine ⟨({ (ImageProcess.ImageProcess6 f.image f.filterList x y w h) with patch := pt }
      : ImageProcess), ?_, ?_, rfl, rfl, ⟨rfl, rfl, rfl, rfl⟩, rfl, k0, k1, k2⟩
    · rw [happly, hpt]
    · rw [happly, hpt]
  by_cases hz : f.width = 0 ∧ f.height = 0
  · obtain ⟨rec, a1, a2, a3, a4, a5, a6, a7, a8, a9⟩ := main 0 0 f.XYLimit0 f.XYLimit1
      (by simp only [MyFrame.OnButtonApplyClick, if_pos hz])
    exact ⟨rec, a1, a2, a3, a4, fun _ => a5, fun hn => absurd hz hn, a6, a7, a8, a9⟩
  · obtain ⟨rec, a1, a2, a3, a4, a5, a6, a7, a8, a9⟩ := main f.xUpperLeft f.yUpperLeft
      f.width f.height (by simp only [MyFrame.OnButtonApplyClick, if_neg hz])
    exact ⟨rec, a1, a2, a3, a4, fun hp => absurd hp hz, fun _ => a5, a6, a7, a8, a9⟩

/-- C15. In a frame whose undo stack is in a valid state, whose limits are the image size, with
one of the four filters selected and a rectangle inside the image in the spin controls, Apply
pushes the new record on top of the undo stack and leaves the redo stack as it was (same
records, same order, same count).  The new record is the record of the operation just applied:
it is valid, carries the selected operation and the rectangle operated on (the whole image when
width and height are both 0), its pre-operation buffer is the patch cut from the image before
the Apply, and the image after the Apply is the old image with the post-operation buffer of the
record written over the rectangle; for the three integer filters (edges, negation, smoothing)
that buffer is stated as the output of the filter on the patch. -/
theorem apply_pushes_on_undo_and_keeps_redo (f : MyFrame) (hu : f.undoStack.Valid)
    (hlim : f.XYLimit0 = f.image.width ∧ f.XYLimit1 = f.image.height)
    (hop : f.filterList = 0 ∨ f.filterList = 1 ∨ f.filterList = 2 ∨ f.filterList = 3)
    (hx : 0 ≤ f.xUpperLeft) (hy : 0 ≤ f.yUpperLeft)
    (hw : f.xUpperLeft + f.width ≤ f.image.width)
    (hh : f.yUpperLeft + f.height ≤ f.image.height) :
    (∃ rec : ImageProcess,
        f.OnButtonApplyClick.undoStack.records.getLast? = some rec
        ∧ f.OnButtonApplyClick.undoStack.records
            = (if f.undoStack.getElements = STACKSIZE then f.undoStack.records.tail
                else f.undoStack.records) ++ [rec]
        ∧ rec.fits f.image
        ∧ rec.op_ID = f.filterList
        ∧ (f.width = 0 ∧ f.height = 0 →
            rec.x = 0 ∧ rec.y = 0 ∧ rec.w = f.XYLimit0 ∧ rec.h = f.XYLimit1)
        ∧ (¬ (f.width = 0 ∧ f.height = 0) →
            rec.x = f.xUpperLeft ∧ rec.y = f.yUpperLeft ∧ rec.w = f.width ∧ rec.h = f.height)
        ∧ (∀ c r : Nat, (c : Int) < rec.w → (r : Int) < rec.h →
            rec.old_patch.pix c r = f.image.pix (rec.x.toNat + c) (rec.y.toNat + r))
        ∧ rec.old_patch
            = (ImageProcess.ImageProcess6 f.image f.filterList rec.x rec.y rec.w rec.h).old_patch
        ∧ (f.filterList = 0 → rec.patch
            = (ImageProcess.ImageProcess6 f.image f.filterList rec.x rec.y rec.w
                rec.h).sobelPatch)
        ∧ (f.filterList = 1 → rec.patch
            = (ImageProcess.ImageProcess6 f.image f.filterList rec.x rec.y rec.w
                rec.h).negativePatch)
        ∧ (f.filterList = 2 → rec.patch
            = (ImageProcess.ImageProcess6 f.image f.filterList rec.x rec.y rec.w
                rec.h).gaussPatch)
        ∧ f.OnButtonApplyClick.image = rec.setPatchImage f.image 1)
      ∧ f.OnButtonApplyClick.redoStack = f.redoStack
      ∧ f.OnButtonApplyClick.redoStack.records = f.redoStack.records
      ∧ f.OnButtonApplyClick.redoStack.getElements = f.redoStack.getElements := by
  obtain ⟨rec, hpush, himg, hid, hst, hzero, hrect, hold, k0, k1, k2⟩ := apply_record f hop
  obtain ⟨hc, _, hd⟩ := records_push f.undoStack rec hu
  have hgeo : 0 ≤ rec.x ∧ 0 ≤ rec.y ∧ rec.x + rec.w ≤ f.image.width
      ∧ rec.y + rec.h ≤ f.image.height := by
    by_cases hz : f.width = 0 ∧ f.height = 0
    · obtain ⟨e1, e2, e3, e4⟩ := hzero hz
      rw [e1, e2, e3, e4, hlim.1, hlim.2]
      omega
    · obtain ⟨e1, e2, e3, e4⟩ := hrect hz
      rw [e1, e2, e3, e4]
      exact ⟨hx, hy, hw, hh⟩
  refine ⟨⟨rec, by rw [hpush]; exact hd, by rw [hpush]; exact hc,
    ⟨hst, hgeo.1, hgeo.2.1, hgeo.2.2.1, hgeo.2.2.2⟩, hid, hzero, hrect, ?_, hold, k0, k1, k2,
    himg⟩, rfl, rfl, rfl⟩
  intro c r hc1 hr1
  rw [hold]
  exact (ImageProcess6_buffers f.image f.filterList rec.x rec.y rec.w rec.h hgeo.1 hgeo.2.1
    hgeo.2.2.1 hgeo.2.2.2 c r hc1 hr1).1

/-! ## The buttons as the gate of Undo and Redo -/

theorem fits_of_same_size (p : ImageProcess) (a b : Bitmap) (h : p.fits a)
    (hw : b.width = a.width) (hh : b.height = a.height) : p.fits b := by
  obtain ⟨g1, g2, g3, g4, g5⟩ := h
  exact ⟨g1, g2, g3, by rw [hw]; exact g4, by rw [hh]; exact g5⟩

theorem updateUndoRedo_gates (t : Session) :
    ((Session.updateUndoRedo t).undoBtn = true ↔ t.frame.undoStack.getElements ≠ 0)
      ∧ ((Session.updateUndoRedo t).redoBtn = true ↔ t.frame.redoStack.getElements ≠ 0)
      ∧ (Session.updateUndoRedo t).frame = t.frame
      ∧ (Session.updateUndoRedo t).applyBtn = t.applyBtn := by
  refine ⟨?_, ?_, rfl, rfl⟩
  · by_cases h : t.frame.undoStack.getElements = 0
    · simp [Session.updateUndoRedo, h]
    · simp [Session.updateUndoRedo, h]
  · by_cases h : t.frame.redoStack.getElements = 0
    · simp [Session.updateUndoRedo, h]
    · simp [Session.updateUndoRedo, h]

theorem mem_records_push (s : operationStack) (r q : ImageProcess) (hv : s.Valid)
    (hq : q ∈ (s.push r).records) : q ∈ s.records ∨ q = r := by
  rw [(records_push s r hv).1] at hq
  rcases List.mem_append.mp hq with h | h
  · left
    by_cases hf : s.getElements = STACKSIZE
    · rw [if_pos hf] at h
      exact List.mem_of_mem_tail h
    · rw [if_neg hf] at h
      exact h
  · right
    simpa using h

theorem move_top_record (a b : operationStack) (image image1 : Bitmap)
    (ha : a.Valid) (hb : b.Valid) (hpos : a.getElements ≠ 0)
    (hfa : ∀ r ∈ a.records, r.fits image) (hfb : ∀ r ∈ b.records, r.fits image)
    (hw : image1.width = image.width) (hh : image1.height = image.height) :
    a.pop.2.Valid ∧ (b.push a.pop.1).Valid
      ∧ a.pop.1 = a.topRecord ∧ a.topRecord.fits image
      ∧ (∀ r ∈ a.pop.2.records, r.fits image1)
      ∧ (∀ r ∈ (b.push a.pop.1).records, r.fits image1) := by
  have hpos2 : 0 < a.getElements := by
    have := ha.1
    simp only [operationStack.getElements] at hpos ⊢
    omega
  obtain ⟨htop, h0⟩ := pop_fst_eq_topRecord a hpos2
  obtain ⟨hrec, _, _⟩ := records_pop a h0
  have hmem : a.pop.1 ∈ a.records := by
    rw [hrec]
    exact List.mem_append_right _ (List.mem_singleton.mpr rfl)
  have hfit := hfa _ hmem
  refine ⟨pop_valid a ha, push_valid b _ hb, htop, by rw [← htop]; exact hfit, ?_, ?_⟩
  · intro r hr
    have : r ∈ a.records := by
      rw [hrec]
      exact List.mem_append_left _ hr
    exact fits_of_same_size r image image1 (hfa r this) hw hh
  · intro r hr
    rcases mem_records_push b a.pop.1 r hb hr with h | h
    · exact fits_of_same_size r image image1 (hfb r h) hw hh
    · rw [h]
      exact fits_of_same_size _ image image1 hfit hw hh

theorem start_inv (image : Bitmap) : (Session.start image).Inv := by
  refine ⟨operationStack0_valid, operationStack0_valid, ⟨rfl, rfl⟩, ?_, ?_, ?_, ?_, ?_, ?_⟩
  · show (0 : Int) ≤ 0 ∧ (0 : Int) ≤ 0 ∧ (0 : Int) + 0 ≤ (image.width : Int)
      ∧ (0 : Int) + 0 ≤ (image.height : Int)
    omega
  · intro h
    exact absurd (show false = true from h) Bool.false_ne_true
  · constructor
    · intro h
      exact absurd (show false = true from h) Bool.false_ne_true
    · intro h
      exact absurd rfl h
  · constructor
    · intro h
      exact absurd (show false = true from h) Bool.false_ne_true
    · intro h
      exact absurd rfl h
  · intro r hr
    exact absurd hr (List.not_mem_nil r)
  · intro r hr
    exact absurd hr (List.not_mem_nil r)

theorem undo_inv (s : Session) (h : s.Inv) (hb : s.undoBtn = true) :
    s.OnButtonUndoClick.Inv := by
  have hpos := h.undoGate.mp hb
  have hs := setPatchImage_size s.frame.undoStack.pop.1 s.frame.image 0
  obtain ⟨m1, m2, _, _, m5, m6⟩ := move_top_record s.frame.undoStack s.frame.redoStack
    s.frame.image (s.frame.undoStack.pop.1.setPatchImage s.frame.image 0)
    h.undoValid h.redoValid hpos h.undoFit h.redoFit hs.1 hs.2
  obtain ⟨g1, g2, _, _⟩ := updateUndoRedo_gates { s with frame := s.frame.OnButtonUndoClick }
  refine ⟨m1, m2, ?_, ?_, h.selected, g1, g2, m5, m6⟩
  · show s.frame.XYLimit0 = ((s.frame.undoStack.pop.1.setPatchImage s.frame.image 0).width : Int)
      ∧ s.frame.XYLimit1
        = ((s.frame.undoStack.pop.1.setPatchImage s.frame.image 0).height : Int)
    rw [hs.1, hs.2]
    exact h.limits
  · show 0 ≤ s.frame.xUpperLeft ∧ 0 ≤ s.frame.yUpperLeft
      ∧ s.frame.xUpperLeft + s.frame.width
        ≤ ((s.frame.undoStack.pop.1.setPatchImage s.frame.image 0).width : Int)
      ∧ s.frame.yUpperLeft + s.frame.height
        ≤ ((s.frame.undoStack.pop.1.setPatchImage s.frame.image 0).height : Int)
    rw [hs.1, hs.2]
    exact h.inside

theorem redo_inv (s : Session) (h : s.Inv) (hb : s.redoBtn = true) :
    s.OnButtonRedoClick.Inv := by
  have hpos := h.redoGate.mp hb
  have hs := setPatchImage_size s.frame.redoStack.pop.1 s.frame.image 1
  obtain ⟨m1, m2, _, _, m5, m6⟩ := move_top_record s.frame.redoStack s.frame.undoStack
    s.frame.image (s.frame.redoStack.pop.1.setPatchImage s.frame.image 1)
    h.redoValid h.undoValid hpos h.redoFit h.undoFit hs.1 hs.2
  obtain ⟨g1, g2, _, _⟩ := updateUndoRedo_gates { s with frame := s.frame.OnButtonRedoClick }
  refine ⟨m2, m1, ?_, ?_, h.selected, g1, g2, m6, m5⟩
  · show s.frame.XYLimit0 = ((s.frame.redoStack.pop.1.setPatchImage s.frame.image 1).width : Int)
      ∧ s.frame.XYLimit1
        = ((s.frame.redoStack.pop.1.setPatchImage s.frame.image 1).height : Int)
    rw [hs.1, hs.2]
    exact h.limits
  · show 0 ≤ s.frame.xUpperLeft ∧ 0 ≤ s.frame.yUpperLeft
      ∧ s.frame.xUpperLeft + s.frame.width
        ≤ ((s.frame.redoStack.pop.1.setPatchImage s.frame.image 1).width : Int)
      ∧ s.frame.yUpperLeft + s.frame.height
        ≤ ((s.frame.redoStack.pop.1.setPatchImage s.frame.image 1).height : Int)
    rw [hs.1, hs.2]
    exact h.inside

theorem apply_record_fits (f : MyFrame)
    (hlim : f.XYLimit0 = f.image.width ∧ f.XYLimit1 = f.image.height)
    (hop : f.filterList = 0 ∨ f.filterList = 1 ∨ f.filterList = 2 ∨ f.filterList = 3)
    (hin : 0 ≤ f.xUpperLeft ∧ 0 ≤ f.yUpperLeft ∧ f.xUpperLeft + f.width ≤ f.image.width
      ∧ f.yUpperLeft + f.height ≤ f.image.height) :
    ∃ rec : ImageProcess, f.OnButtonApplyClick.undoStack = f.undoStack.push rec
      ∧ f.OnButtonApplyClick.image = rec.setPatchImage f.image 1
      ∧ rec.fits f.image := by
  obtain ⟨rec, hpush, himg, _, hst, hzero, hrect, _⟩ := apply_record f hop
  refine ⟨rec, hpush, himg, hst, ?_⟩
  by_cases hz : f.width = 0 ∧ f.height = 0
  · obtain ⟨e1, e2, e3, e4⟩ := hzero hz
    rw [e1, e2, e3, e4, hlim.1, hlim.2]
    omega
  · obtain ⟨e1, e2, e3, e4⟩ := hrect hz
    rw [e1, e2, e3, e4]
    exact hin

theorem apply_inv (s : Session) (h : s.Inv) (hb : s.applyBtn = true) :
    s.OnButtonApplyClick.Inv := by
  obtain ⟨rec, hpush, himg, hfit⟩ := apply_record_fits s.frame h.limits (h.selected hb) h.inside
  have hs := setPatchImage_size rec s.frame.image 1
  have hw : s.frame.OnButtonApplyClick.image.width = s.frame.image.width := by
    rw [himg]; exact hs.1
  have hh : s.frame.OnButtonApplyClick.image.height = s.frame.image.height := by
    rw [himg]; exact hs.2
  obtain ⟨g1, g2, _, _⟩ := updateUndoRedo_gates { s with frame := s.frame.OnButtonApplyClick }
  refine ⟨?_, h.redoValid, ?_, ?_, h.selected, g1, g2, ?_, ?_⟩
  · show s.frame.OnButtonApplyClick.undoStack.Valid
    rw [hpush]
    exact push_valid _ _ h.undoValid
  · show s.frame.XYLimit0 = (s.frame.OnButtonApplyClick.image.width : Int)
      ∧ s.frame.XYLimit1 = (s.frame.OnButtonApplyClick.image.height : Int)
    rw [hw, hh]
    exact h.limits
  · show 0 ≤ s.frame.xUpperLeft ∧ 0 ≤ s.frame.yUpperLeft
      ∧ s.frame.xUpperLeft + s.frame.width ≤ (s.frame.OnButtonApplyClick.image.width : Int)
      ∧ s.frame.yUpperLeft + s.frame.height ≤ (s.frame.OnButtonApplyClick.image.height : Int)
    rw [hw, hh]
    exact h.inside
  · intro r hr
    have hr2 : r ∈ (s.frame.undoStack.push rec).records := by
      rw [← hpush]; exact hr
    rcases mem_records_push _ rec r h.undoValid hr2 with k | k
    · exact fits_of_same_size r _ _ (h.undoFit r k) hw hh
    · rw [k]
      exact fits_of_same_size rec _ _ hfit hw hh
  · intro r hr
    exact fits_of_same_size r _ _ (h.redoFit r hr) hw hh

theorem act_inv (s : Session) (a : UserAction) (h : s.Inv) : (s.act a).Inv := by
  cases a with
  | select k =>
    by_cases hk : 0 ≤ k ∧ k ≤ 3
    · simp only [Session.act, if_pos hk]
      refine ⟨h.undoValid, h.redoValid, h.limits, h.inside, ?_, h.undoGate, h.redoGate,
        h.undoFit, h.redoFit⟩
      intro _
      show k = 0 ∨ k = 1 ∨ k = 2 ∨ k = 3
      omega
    · simp only [Session.act, if_neg hk]
      exact h
  | spin x y w hgt =>
    by_cases hk : 0 ≤ x ∧ 0 ≤ y ∧ 0 ≤ w ∧ 0 ≤ hgt ∧ x + w ≤ s.frame.XYLimit0
        ∧ y + hgt ≤ s.frame.XYLimit1
    · simp only [Session.act, if_pos hk]
      refine ⟨h.undoValid, h.redoValid, h.limits, ?_, h.selected, h.undoGate, h.redoGate,
        h.undoFit, h.redoFit⟩
      show 0 ≤ x ∧ 0 ≤ y ∧ x + w ≤ (s.frame.image.width : Int)
        ∧ y + hgt ≤ (s.frame.image.height : Int)
      rw [← h.limits.1, ← h.limits.2]
      exact ⟨hk.1, hk.2.1, hk.2.2.2.2.1, hk.2.2.2.2.2⟩
    · simp only [Session.act, if_neg hk]
      exact h
  | coefficients alpha beta =>
    exact ⟨h.undoValid, h.redoValid, h.limits, h.inside, h.selected, h.undoGate, h.redoGate,
      h.undoFit, h.redoFit⟩
  | click b =>
    cases b with
    | undoBtn =>
      by_cases hb : s.undoBtn = true
      · simp only [Session.act, if_pos hb]
        exact undo_inv s h hb
      · simp only [Session.act, if_neg hb]
        exact h
    | redoBtn =>
      by_cases hb : s.redoBtn = true
      · simp only [Session.act, if_pos hb]
        exact redo_inv s h hb
      · simp only [Session.act, if_neg hb]
        exact h
    | apply =>
      by_cases hb : s.applyBtn = true
      · simp only [Session.act, if_pos hb]
        exact apply_inv s h hb
      · simp only [Session.act, if_neg hb]
        exact h

theorem run_inv (acts : List UserAction) (s : Session) (h : s.Inv) : (s.run acts).Inv := by
  induction acts generalizing s with
  | nil => exact h
  | cons a rest ih => exact ih (s.act a) (act_inv s a h)

theorem top_record_fits (s : operationStack) (image : Bitmap) (hv : s.Valid)
    (hpos : s.getElements ≠ 0) (hf : ∀ r ∈ s.records, r.fits image) :
    s.topRecord.fits image :=
  (move_top_record s s image image hv hv hpos hf hf rfl rfl).2.2.2.1

/-- C16 (as the code has it). In every session reached from the start of the frame by list
selections, spin-control changes and clicks on Apply, Undo and Redo: the Undo button is enabled
exactly when the undo stack has records, so an Undo requested while the undo stack has no
records is not delivered to `OnButtonUndoClick`; nothing fails and nothing changes (same image,
same stacks, no record pushed on the redo stack).  Whenever the button is enabled the top record
of the undo stack fits the image.  The same holds for Redo and the redo stack. -/
theorem undo_request_on_empty_stack_is_dropped (image : Bitmap) (acts : List UserAction) :
    (((Session.start image).run acts).undoBtn = true
        ↔ ((Session.start image).run acts).frame.undoStack.getElements ≠ 0)
      ∧ (((Session.start image).run acts).redoBtn = true
        ↔ ((Session.start image).run acts).frame.redoStack.getElements ≠ 0)
      ∧ (((Session.start image).run acts).frame.undoStack.getElements = 0 →
          ((Session.start image).run acts).act (UserAction.click Button.undoBtn)
            = (Session.start image).run acts)
      ∧ (((Session.start image).run acts).frame.redoStack.getElements = 0 →
          ((Session.start image).run acts).act (UserAction.click Button.redoBtn)
            = (Session.start image).run acts)
      ∧ (((Session.start image).run acts).undoBtn = true →
          ((Session.start image).run acts).frame.undoStack.topRecord.fits
            ((Session.start image).run acts).frame.image)
      ∧ (((Session.start image).run acts).redoBtn = true →
          ((Session.start image).run acts).frame.redoStack.topRecord.fits
            ((Session.start image).run acts).frame.image) := by
  have h := run_inv acts (Session.start image) (start_inv image)
  refine ⟨h.undoGate, h.redoGate, ?_, ?_, ?_, ?_⟩
  · intro he
    have hb : ¬ ((Session.start image).run acts).undoBtn = true :=
      fun hb => (h.undoGate.mp hb) he
    simp only [Session.act, if_neg hb]
  · intro he
    have hb : ¬ ((Session.start image).run acts).redoBtn = true :=
      fun hb => (h.redoGate.mp hb) he
    simp only [Session.act, if_neg hb]
  · intro hb
    exact top_record_fits _ _ h.undoValid (h.undoGate.mp hb) h.undoFit
  · intro hb
    exact top_record_fits _ _ h.redoValid (h.redoGate.mp hb) h.redoFit

/-- C16, counterexample: Undo, then Redo, requested at the start of the frame showing `blank10`,
where both stacks are without records.  No failure comes back: the buttons are disabled, the
clicks are dropped, and the session after each request is the session before it, in which the
program goes on. -/
theorem undo_request_on_empty_stack_returns_no_failure :
    (Session.start blank10).frame.undoStack.getElements = 0
      ∧ (Session.start blank10).frame.redoStack.getElements = 0
      ∧ (Session.start blank10).undoBtn = false
      ∧ (Session.start blank10).redoBtn = false
      ∧ (Session.start blank10).act (UserAction.click Button.undoBtn) = Session.start blank10
      ∧ (Session.start blank10).act (UserAction.click Button.redoBtn) = Session.start blank10 :=
  ⟨rfl, rfl, rfl, rfl, rfl, rfl⟩

/-- C11, witness: the patch cut from `ramp10` at (2, 3) with size 4 x 5. -/
theorem constrast_with_unit_coefficients_is_identity_witness :
    (∀ c r : Nat, (c : Int) < (ImageProcess.ImageProcess6 ramp10 3 2 3 4 5).w →
        (r : Int) < (ImageProcess.ImageProcess6 ramp10 3 2 3 4 5).h →
        (ImageProcess.ImageProcess6 ramp10 3 2 3 4 5).patch.pix c r ≤ 255)
      ∧ (0 : Int) ≤ (ImageProcess.ImageProcess6 ramp10 3 2 3 4 5).x
      ∧ (0 : Int) ≤ (ImageProcess.ImageProcess6 ramp10 3 2 3 4 5).y
      ∧ ((∀ c r : Nat,
            ((ImageProcess.ImageProcess6 ramp10 3 2 3 4 5).constrast ramp10 1 0).1.patch.pix c r
              = (ImageProcess.ImageProcess6 ramp10 3 2 3 4 5).patch.pix c r)
          ∧ sameImage ((ImageProcess.ImageProcess6 ramp10 3 2 3 4 5).constrast ramp10 1 0).2
              ramp10) :=
  have h8 : ∀ c r : Nat, (c : Int) < (ImageProcess.ImageProcess6 ramp10 3 2 3 4 5).w →
      (r : Int) < (ImageProcess.ImageProcess6 ramp10 3 2 3 4 5).h →
      (ImageProcess.ImageProcess6 ramp10 3 2 3 4 5).patch.pix c r ≤ 255 := by
    intro c r hc hr
    have hc1 : (c : Int) < 4 := hc
    have hr1 : (r : Int) < 5 := hr
    show 10 * (3 + r) + (2 + c) ≤ 255
    omega
  ⟨h8, by decide, by decide,
    constrast_with_unit_coefficients_is_identity (ImageProcess.ImageProcess6 ramp10 3 2 3 4 5)
      ramp10 h8 (by decide) (by decide) (fun _ _ _ _ => rfl)⟩

/-- C12, witness: `negative` twice on the rectangle (2, 3, 4, 5) of `ramp10`. -/
theorem negative_twice_restores_image_witness :
    (∀ c r : Nat, c < ramp10.width → r < ramp10.height → ramp10.pix c r ≤ 255)
      ∧ (0 : Int) ≤ 2 ∧ (0 : Int) ≤ 3
      ∧ (2 : Int) + 4 ≤ ramp10.width ∧ (3 : Int) + 5 ≤ ramp10.height
      ∧ sameImage
          ((ImageProcess.ImageProcess6
              ((ImageProcess.ImageProcess6 ramp10 1 2 3 4 5).negative ramp10).2 1 2 3 4
                5).negative
            ((ImageProcess.ImageProcess6 ramp10 1 2 3 4 5).negative ramp10).2).2
          ramp10 :=
  have h8 : ∀ c r : Nat, c < ramp10.width → r < ramp10.height → ramp10.pix c r ≤ 255 := by
    intro c r hc hr
    have hc1 : c < 10 := hc
    have hr1 : r < 10 := hr
    show 10 * r + c ≤ 255
    omega
  ⟨h8, by decide, by decide, by decide, by decide,
    (negative_twice_restores_image ramp10 1 2 3 4 5 h8 (by decide) (by decide) (by decide)
      (by decide)).1⟩

/-- C13, witness: the patch cut from `ramp10` at (2, 3) with size 4 x 5, written over `blank10`
with mode 1; the image pixel (3, 5) receives the patch pixel (1, 2), of intensity 53, and the
image pixel (0, 0) keeps its 0. -/
theorem setPatchImage_writes_rectangle_only_witness :
    (ImageProcess.ImageProcess6 ramp10 1 2 3 4 5).getPatchState = false
      ∧ (0 : Int) ≤ (ImageProcess.ImageProcess6 ramp10 1 2 3 4 5).x
      ∧ (0 : Int) ≤ (ImageProcess.ImageProcess6 ramp10 1 2 3 4 5).y
      ∧ (ImageProcess.ImageProcess6 ramp10 1 2 3 4 5).x
          + (ImageProcess.ImageProcess6 ramp10 1 2 3 4 5).w ≤ blank10.width
      ∧ (ImageProcess.ImageProcess6 ramp10 1 2 3 4 5).y
          + (ImageProcess.ImageProcess6 ramp10 1 2 3 4 5).h ≤ blank10.height
      ∧ ((ImageProcess.ImageProcess6 ramp10 1 2 3 4 5).setPatchImage blank10 1).width = 10
      ∧ ((ImageProcess.ImageProcess6 ramp10 1 2 3 4 5).setPatchImage blank10 1).pix 3 5 = 53
      ∧ ((ImageProcess.ImageProcess6 ramp10 1 2 3 4 5).setPatchImage blank10 1).pix 0 0 = 0 :=
  ⟨rfl, by decide, by decide, by decide, by decide,
    (setPatchImage_writes_rectangle_only (ImageProcess.ImageProcess6 ramp10 1 2 3 4 5) blank10 1
      rfl (by decide) (by decide) (by decide) (by decide)).1,
    ((setPatchImage_writes_rectangle_only (ImageProcess.ImageProcess6 ramp10 1 2 3 4 5) blank10 1
      rfl (by decide) (by decide) (by decide) (by decide)).2.2.1 1 2 (by decide)
        (by decide)).2.2.1 (by decide),
    (setPatchImage_writes_rectangle_only (ImageProcess.ImageProcess6 ramp10 1 2 3 4 5) blank10 1
      rfl (by decide) (by decide) (by decide) (by decide)).2.2.2 0 0 (by decide)⟩

theorem frame10b_valid : frame10b.undoStack.Valid ∧ frame10b.redoStack.Valid :=
  ⟨⟨by decide, by decide⟩, ⟨by decide, by decide⟩⟩

/-- C15, witness: Apply (negation on the rectangle (2, 2, 3, 3)) on `frame10b`, whose redo stack
holds one record. -/
theorem apply_pushes_on_undo_and_keeps_redo_witness :
    frame10b.undoStack.Valid
      ∧ (frame10b.XYLimit0 = frame10b.image.width ∧ frame10b.XYLimit1 = frame10b.image.height)
      ∧ (frame10b.filterList = 0 ∨ frame10b.filterList = 1 ∨ frame10b.filterList = 2
          ∨ frame10b.filterList = 3)
      ∧ 0 ≤ frame10b.xUpperLeft ∧ 0 ≤ frame10b.yUpperLeft
      ∧ frame10b.xUpperLeft + frame10b.width ≤ frame10b.image.width
      ∧ frame10b.yUpperLeft + frame10b.height ≤ frame10b.image.height
      ∧ frame10b.redoStack.getElements = 1
      ∧ frame10b.OnButtonApplyClick.redoStack = frame10b.redoStack
      ∧ frame10b.OnButtonApplyClick.redoStack.records = frame10b.redoStack.records
      ∧ frame10b.OnButtonApplyClick.redoStack.getElements = frame10b.redoStack.getElements
      ∧ (∃ rec : ImageProcess,
          frame10b.OnButtonApplyClick.undoStack.records.getLast? = some rec
          ∧ rec.fits frame10b.image
          ∧ rec.op_ID = 1
          ∧ (rec.x = 2 ∧ rec.y = 2 ∧ rec.w = 3 ∧ rec.h = 3)
          ∧ rec.patch = (ImageProcess.ImageProcess6 frame10b.image frame10b.filterList rec.x
              rec.y rec.w rec.h).negativePatch
          ∧ frame10b.OnButtonApplyClick.image = rec.setPatchImage frame10b.image 1) :=
  ⟨frame10b_valid.1, ⟨by decide, by decide⟩, by decide, by decide, by decide, by decide,
    by decide, by decide,
    (apply_pushes_on_undo_and_keeps_redo frame10b frame10b_valid.1 ⟨by decide, by decide⟩
      (by decide) (by decide) (by decide) (by decide) (by decide)).2.1,
    (apply_pushes_on_undo_and_keeps_redo frame10b frame10b_valid.1 ⟨by decide, by decide⟩
      (by decide) (by decide) (by decide) (by decide) (by decide)).2.2.1,
    (apply_pushes_on_undo_and_keeps_redo frame10b frame10b_valid.1 ⟨by decide, by decide⟩
      (by decide) (by decide) (by decide) (by decide) (by decide)).2.2.2,
    (apply_pushes_on_undo_and_keeps_redo frame10b frame10b_valid.1 ⟨by decide, by decide⟩
      (by decide) (by decide) (by decide) (by decide) (by decide)).1.imp
      (fun _ k => ⟨k.1, k.2.2.1, k.2.2.2.1, k.2.2.2.2.2.1 (by decide),
        k.2.2.2.2.2.2.2.2.2.1 rfl, k.2.2.2.2.2.2.2.2.2.2.2⟩)⟩

/-- C16, witness: the session `session10`, whose undo stack is without records and whose redo
stack holds one record; an Undo request is dropped and the Redo button is enabled on a record
that fits the image. -/
theorem undo_request_on_empty_stack_is_dropped_witness :
    session10.frame.undoStack.getElements = 0
      ∧ session10.frame.redoStack.getElements = 1
      ∧ session10.undoBtn = false
      ∧ session10.act (UserAction.click Button.undoBtn) = session10
      ∧ session10.redoBtn = true
      ∧ session10.frame.redoStack.topRecord.fits session10.frame.image :=
  ⟨by decide, by decide, by decide,
    (undo_request_on_empty_stack_is_dropped blank10
      [UserAction.select 1, UserAction.spin 2 2 3 3, UserAction.click Button.apply,
       UserAction.click Button.undoBtn]).2.2.1 (by decide),
    (undo_request_on_empty_stack_is_dropped blank10
      [UserAction.select 1, UserAction.spin 2 2 3 3, UserAction.click Button.apply,
       UserAction.click Button.undoBtn]).2.1.mpr (by decide),
    (undo_request_on_empty_stack_is_dropped blank10
      [UserAction.select 1, UserAction.spin 2 2 3 3, UserAction.click Button.apply,
       UserAction.click Button.undoBtn]).2.2.2.2.2 (by decide)⟩

/-- C17, witness: the 5 x 5 patch with every pixel 255; row 3, columns 0 and 1. -/
theorem first_columns_are_written_zero_witness :
    ((0 : Nat) : Int) < (ImageProcess.ImageProcess6 white5 2 0 0 5 5).w
      ∧ ((1 : Nat) : Int) < (ImageProcess.ImageProcess6 white5 2 0 0 5 5).w
      ∧ ((3 : Nat) : Int) < (ImageProcess.ImageProcess6 white5 2 0 0 5 5).h
      ∧ ((ImageProcess.ImageProcess6 white5 2 0 0 5 5).gauss_filter white5).1.patch.pix 0 3 = 0
      ∧ ((ImageProcess.ImageProcess6 white5 2 0 0 5 5).gauss_filter white5).1.patch.pix 1 3 = 0
      ∧ ((ImageProcess.ImageProcess6 white5 2 0 0 5 5).sobel_filter white5).1.patch.pix 0 3 = 0 :=
  ⟨by decide, by decide, by decide,
    ((first_columns_are_written_zero (ImageProcess.ImageProcess6 white5 2 0 0 5 5) white5 0 3
      (by decide) (by decide)).1 (by decide)).1,
    ((first_columns_are_written_zero (ImageProcess.ImageProcess6 white5 2 0 0 5 5) white5 1 3
      (by decide) (by decide)).1 (by decide)).1,
    ((first_columns_are_written_zero (ImageProcess.ImageProcess6 white5 2 0 0 5 5) white5 0 3
      (by decide) (by decide)).2 rfl).1⟩

end PyA
